import Mathlib

/-!
# Verification of the sf-01 execution-plan orchestrator

A shallow embedding of the plan builder (`createExecutionPlan`), the plan
executor (`executePlan`), and the two generation collaborators
(`generateModelDescription`, `generateModelData`) from `src/agent/index.ts`
and `src/services/geminiService.ts`, together with proofs about the
status/state-propagation contract.

The external AI backend is nondeterministic; each call's behaviour is
supplied by an oracle argument (`DescAIOutcome`, `StructAttemptOutcome`).
All state mutation performed through the context collaborators
(`updateTaskInPlan`, `updatePlan`, `updateModel`) and every collaborator
invocation is recorded as an `Event` in an append-only trace; the stored
entities are recovered by folding the shallow merges (exactly as
`AgentContext.tsx` implements them) over the trace.
-/

namespace SF01

/-- JavaScript `String.prototype.startsWith`: byte-wise prefix test. -/
def jsStartsWith (s pat : String) : Bool :=
  pat.data.isPrefixOf s.data

/-- Helper for `jsIncludes`: does `pat` occur as a contiguous run in `s`? -/
def jsIncludesAux (pat : List Char) : List Char → Bool
  | [] => pat.isPrefixOf []
  | c :: rest => pat.isPrefixOf (c :: rest) || jsIncludesAux pat rest

/-- JavaScript `String.prototype.includes`: substring test. -/
def jsIncludes (s pat : String) : Bool :=
  jsIncludesAux pat.data s.data

/-- The regex `/<[a-zA-Z]/` from `generateModelData`: a `<` immediately
followed by an ASCII letter, anywhere in the string. -/
def hasJsxAux : List Char → Bool
  | [] => false
  | [_] => false
  | c :: d :: rest => (c = '<' && d.isAlpha) || hasJsxAux (d :: rest)

/-- Embeds the test `/<[a-zA-Z]/.test modelCode` — the source's crude JSX detector. -/
def hasJsxCode (s : String) : Bool :=
  hasJsxAux s.data

/-- Enum `TaskStatus` from `types.ts`. -/
inductive TaskStatus where
  | PENDING
  | IN_PROGRESS
  | COMPLETED
  | FAILED
  deriving DecidableEq, Repr

/-- Enum `ModelStatus` from `types.ts`. -/
inductive ModelStatus where
  | PENDING
  | GENERATING
  | COMPLETED
  | FAILED
  deriving DecidableEq, Repr

/-- Union `ToolName` from `agent/tools.ts`. -/
inductive ToolName where
  | INITIAL_MODEL_GENERATOR
  | MODEL_REFINER
  | CODE_GENERATOR
  | STRUCTURAL_ANALYSIS
  | BIM_DATA_ATTACHER
  deriving DecidableEq, Repr

/-- Enum `DesignInputType` from `types.ts`. -/
inductive DesignInputType where
  | TEXT
  | IMAGE
  | DXF
  deriving DecidableEq, Repr

/-- Interface `DesignInput` from `types.ts`. -/
structure DesignInput where
  id : String
  type : DesignInputType
  data : String
  fileName : Option String := none
  deriving DecidableEq, Repr

/-- Interface `BillOfMaterialsItem` from `types.ts` (`quantity` is a JS number used
as an integer). -/
structure BillOfMaterialsItem where
  component : String
  quantity : Int
  estimatedMaterial : String
  deriving DecidableEq, Repr

/-- The structured bundle produced by `generateModelData`. -/
structure ModelBundle where
  modelCode : String
  billOfMaterials : List BillOfMaterialsItem
  engineeringRationale : String
  deriving DecidableEq, Repr

/-- The dynamically typed values flowing through `previousTaskResult` /
`currentTaskResult` / `Task.result` (typed `any` in the source): `null`,
`undefined`, a description string, or the structured bundle. -/
inductive JSValue where
  | vnull
  | vundef
  | vstr (s : String)
  | vbundle (b : ModelBundle)
  deriving DecidableEq, Repr

/-- JavaScript truthiness for the values of `JSValue` (`null`, `undefined`
and `""` are falsy; non-empty strings and objects are truthy). -/
def jsTruthy : JSValue → Bool
  | .vnull => false
  | .vundef => false
  | .vstr s => s ≠ ""
  | .vbundle _ => true

/-- JavaScript string coercion of a `JSValue`, as template interpolation
would perform it (used when a value is passed where a string is expected). -/
def jsDisplay : JSValue → String
  | .vnull => "null"
  | .vundef => "undefined"
  | .vstr s => s
  | .vbundle _ => "[object Object]"

/-- The `arguments` record of a task: the keys the source ever stores
(`inputIds`, `refinementText`); `none` means the key is absent. -/
structure TaskArguments where
  inputIds : Option (List String) := none
  refinementText : Option String := none
  deriving DecidableEq, Repr

/-- Interface `Task` from `types.ts`. Optional fields are `none` when the key is
absent; `result` distinguishes an absent key (`none`) from a key present
with value `undefined` (`some .vundef`). -/
structure Task where
  id : String
  name : String
  description : String
  status : TaskStatus
  toolName : ToolName
  arguments : TaskArguments
  result : Option JSValue := none
  error : Option String := none
  startedAt : Option String := none
  completedAt : Option String := none
  deriving DecidableEq, Repr

/-- Interface `ExecutionPlan` from `types.ts`. -/
structure ExecutionPlan where
  id : String
  goal : String
  tasks : List Task
  status : TaskStatus
  createdAt : String
  modelId : Option String := none
  systemPrompt : Option String := none
  deriving DecidableEq, Repr

/-- The stored `ModelOutput` fields the executor touches. -/
structure ModelRecord where
  id : String
  status : ModelStatus
  description : Option String := none
  modelCode : Option String := none
  billOfMaterials : Option (List BillOfMaterialsItem) := none
  engineeringRationale : Option String := none
  failureReason : Option String := none
  deriving DecidableEq, Repr

/-- The argument record passed to `createExecutionPlan` (`args : any`);
the source reads `args.inputIds`, `args.refinementText`, `args.modelId`. -/
structure GoalArgs where
  inputIds : Option (List String) := none
  refinementText : Option String := none
  modelId : Option String := none
  deriving DecidableEq, Repr

/-- Function `createExecutionPlan` from `agent/index.ts`. `Date.now()` and
`new Date().toISOString()` are the ambient-time parameters `nowMs` and
`nowIso`. The `goal` parameter is declared `'generate' | 'refine'` in TS
but, the argument being supplied from `any`-typed call sites, any string
can reach it at run time; an unrecognized goal leaves `tasks = []` and
`planGoal = ''`. -/
def createExecutionPlan (goal : String) (args : GoalArgs)
    (systemPrompt : Option String) (nowMs : Nat) (nowIso : String) :
    ExecutionPlan :=
  let planId := "plan-" ++ toString nowMs
  let (planGoal, tasks) :=
    if goal = "generate" then
      ("Create a new 3D model from selected inputs.",
       [ { id := planId ++ "-task-1"
         , name := "Analyzing Inputs & Creating Brief"
         , description := "AI will analyze the provided inputs to create a technical description of the 3D model."
         , status := TaskStatus.PENDING
         , toolName := ToolName.INITIAL_MODEL_GENERATOR
         , arguments := { inputIds := args.inputIds } }
       , { id := planId ++ "-task-2"
         , name := "Generating 3D Geometry & Materials"
         , description := "AI will convert the technical description into a renderable component and a Bill of Materials."
         , status := TaskStatus.PENDING
         , toolName := ToolName.INITIAL_MODEL_GENERATOR
         , arguments := {} } ])
    else if goal = "refine" then
      ("Refine an existing 3D model based on new instructions.",
       [ { id := planId ++ "-task-1"
         , name := "Re-analyzing Inputs & Refining Brief"
         , description := "AI will analyze the original inputs and new instructions to refine the model description."
         , status := TaskStatus.PENDING
         , toolName := ToolName.MODEL_REFINER
         , arguments := { inputIds := args.inputIds, refinementText := args.refinementText } }
       , { id := planId ++ "-task-2"
         , name := "Generating Refined Geometry & Materials"
         , description := "AI will convert the refined description into a new component and an updated Bill of Materials."
         , status := TaskStatus.PENDING
         , toolName := ToolName.MODEL_REFINER
         , arguments := {} } ])
    else ("", [])
  { id := planId
  , goal := planGoal
  , tasks := tasks
  , status := TaskStatus.PENDING
  , createdAt := nowIso
  , modelId := args.modelId
  , systemPrompt := systemPrompt }

/-- The behaviour of the underlying `generateContent` call inside
`generateModelDescription`: the AI either produces `response.text`, or the
awaited call throws an `Error` (carrying `message`), or it throws a
non-`Error` value. -/
inductive DescAIOutcome where
  | success (text : String)
  | errorThrow (message : String)
  | nonErrorThrow (value : String)
  deriving DecidableEq, Repr

/-- Function `generateModelDescription` from `services/geminiService.ts`. The prompt
assembled from `inputs` / `refinementText` / `systemPrompt` only feeds the
AI call, whose behaviour is the oracle `ai`; the function's try/catch turns
an `Error` into the sentinel-prefixed string
`"Failed to generate model: " ++ message` and any other thrown value into
`"An unknown error occurred during model generation."`. -/
def generateModelDescription (inputs : List DesignInput)
    (refinementText : Option String) (systemPrompt : Option String)
    (ai : DescAIOutcome) : String :=
  match inputs, refinementText, systemPrompt, ai with
  | _, _, _, .success text => text
  | _, _, _, .errorThrow message => "Failed to generate model: " ++ message
  | _, _, _, .nonErrorThrow _ => "An unknown error occurred during model generation."

/-- One attempt of the retry loop inside `generateModelData`: the AI call
throws (`apiThrow`), or its response text fails `JSON.parse`
(`parseFail` carries the sanitized string), or the parsed value is not an
object with a string `modelCode` (`badShape` carries the JSON string), or
parsing yields a candidate bundle (`parsed`), whose dynamic-`import`
validation either succeeds (`importOk = true`) or throws with
`importError`. -/
inductive StructAttemptOutcome where
  | apiThrow (message : String)
  | parseFail (sanitized : String)
  | badShape (jsonString : String)
  | parsed (modelCode : String) (billOfMaterials : List BillOfMaterialsItem)
      (engineeringRationale : String) (importOk : Bool) (importError : String)
  deriving DecidableEq, Repr

/-- Constant `MAX_RETRIES` from `generateModelData`. -/
def MAX_RETRIES : Nat := 3

/-- The body of one `try` block of `generateModelData`'s retry loop:
applies the deterministic validation steps of the source to the attempt's
oracle outcome, producing either the bundle or the thrown error's message. -/
def attemptResult (outcome : StructAttemptOutcome) : Except String ModelBundle :=
  match outcome with
  | .apiThrow message => .error message
  | .parseFail sanitized =>
      .error ("Invalid JSON response from AI. Sanitized attempt: " ++ sanitized)
  | .badShape jsonString =>
      .error ("AI response is not a valid object with a 'modelCode' string property. Response: " ++ jsonString)
  | .parsed modelCode billOfMaterials engineeringRationale importOk importError =>
      if !(jsIncludes modelCode "export default") then
        .error "Generated code is missing a default export."
      else if hasJsxCode modelCode then
        .error "Generated code appears to contain invalid JSX syntax."
      else if !importOk then
        .error ("Generated code failed validation. Reason: " ++ importError)
      else
        .ok ⟨modelCode, billOfMaterials, engineeringRationale⟩

/-- The degraded bundle `generateModelData` returns when its final attempt
fails (source lines 195-199). -/
def fallbackBundle (lastError : String) : ModelBundle :=
  { modelCode := "// Generation Failed after " ++ toString MAX_RETRIES ++ " attempts: " ++ lastError
  , billOfMaterials := []
  , engineeringRationale := "Failed to generate a valid model. The AI returned invalid data or code that could not be parsed or validated. Last error: " ++ lastError }

/-- The retry loop `for (attempt = 1; attempt <= MAX_RETRIES; attempt++)`:
`fuel` counts the remaining loop iterations (initially `MAX_RETRIES`), and
exhausting it reaches the (dead) trailing
`throw new Error("Model generation failed after all retries.")`. -/
def generateModelDataGo (attempts : Nat → StructAttemptOutcome) :
    Nat → Nat → Except String ModelBundle
  | _, 0 => .error "Model generation failed after all retries."
  | attempt, fuel + 1 =>
    match attemptResult (attempts attempt) with
    | .ok b => .ok b
    | .error msg =>
      if attempt = MAX_RETRIES then .ok (fallbackBundle msg)
      else generateModelDataGo attempts (attempt + 1) fuel

/-- Function `generateModelData` from `services/geminiService.ts`. `description` and
`systemPrompt` only feed the prompt; each attempt's nondeterministic part is
the oracle `attempts` (indexed by attempt number, starting at 1). An
`Except.error` models the function rejecting its promise. -/
def generateModelData (description : String) (systemPrompt : Option String)
    (attempts : Nat → StructAttemptOutcome) : Except String ModelBundle :=
  match description, systemPrompt with
  | _, _ => generateModelDataGo attempts 1 MAX_RETRIES

/-- A `Partial<Task>` literal as the executor passes it to
`updateTaskInPlan`; `none` means the key is not in the literal. -/
structure TaskUpdateFields where
  status : Option TaskStatus := none
  result : Option JSValue := none
  error : Option String := none
  startedAt : Option String := none
  completedAt : Option String := none
  arguments : Option TaskArguments := none
  deriving DecidableEq, Repr

/-- A `Partial<ExecutionPlan>` literal as passed to `updatePlan` (the
executor only ever sets `status`). -/
structure PlanUpdateFields where
  status : Option TaskStatus := none
  deriving DecidableEq, Repr

/-- A `Partial<ModelOutput>` literal as the executor passes to
`updateModel`. -/
structure ModelUpdateFields where
  description : Option String := none
  modelCode : Option String := none
  billOfMaterials : Option (List BillOfMaterialsItem) := none
  engineeringRationale : Option String := none
  status : Option ModelStatus := none
  failureReason : Option String := none
  deriving DecidableEq, Repr

/-- One observable action of the executor: a mutation request sent to the
persistence collaborator, or an invocation of a generation collaborator. -/
inductive Event where
  | taskUpdate (taskId : String) (fields : TaskUpdateFields)
  | planUpdate (planId : String) (fields : PlanUpdateFields)
  | modelUpdate (modelId : String) (fields : ModelUpdateFields)
  | descCall (inputs : List DesignInput) (refinementText : Option String)
      (systemPrompt : Option String)
  | structCall (description : String) (systemPrompt : Option String)
  deriving DecidableEq, Repr

/-- The executor's accumulated effects: the chronological event trace and
the number of `new Date().toISOString()` calls made so far. -/
structure ExecM where
  events : List Event := []
  tick : Nat := 0
  deriving DecidableEq, Repr

/-- Append one event to the trace. -/
def emit (s : ExecM) (e : Event) : ExecM :=
  { s with events := s.events ++ [e] }

/-- The context collaborator (`ProjectContextType`) as the executor sees
it: the synchronous input lookup. (The three update collaborators are
captured by the trace itself.) -/
structure AgentContext where
  getInputsByIds : String → Option (List String) → List DesignInput

/-- The ambient nondeterminism of one `executePlan` run: wall-clock
timestamps (indexed by tick), the AI outcome of the description call made
by the task at each position, and the per-attempt outcomes of the
structured-generation call made by the task at each position. -/
structure ExecOracle where
  time : Nat → String
  descOutcome : Nat → DescAIOutcome
  structAttempts : Nat → Nat → StructAttemptOutcome

/-- Embeds `updateTaskInPlan(..., { status: IN_PROGRESS, startedAt: now })` at the
top of the loop body. -/
def emitTaskStart (o : ExecOracle) (t : Task) (s : ExecM) : ExecM :=
  emit { s with tick := s.tick + 1 }
    (.taskUpdate t.id { status := some .IN_PROGRESS, startedAt := some (o.time s.tick) })

/-- Embeds `updateTaskInPlan(..., { status: COMPLETED, result, completedAt: now })`
on task success. -/
def emitTaskComplete (o : ExecOracle) (t : Task) (r : JSValue) (s : ExecM) : ExecM :=
  emit { s with tick := s.tick + 1 }
    (.taskUpdate t.id { status := some .COMPLETED, result := some r, completedAt := some (o.time s.tick) })

/-- The `catch` block of the loop body: fail the task, the plan and the
model, in that order. -/
def emitFailure (o : ExecOracle) (planId modelId : String) (t : Task)
    (errorMessage : String) (s : ExecM) : ExecM :=
  let s1 := emit { s with tick := s.tick + 1 }
    (.taskUpdate t.id { status := some .FAILED, error := some errorMessage, completedAt := some (o.time s.tick) })
  let s2 := emit s1 (.planUpdate planId { status := some .FAILED })
  emit s2 (.modelUpdate modelId
    { status := some .FAILED
    , failureReason := "Task \"" ++ t.name ++ "\" failed: " ++ errorMessage })

/-- The dispatch section of the loop body (between the `IN_PROGRESS` update
and the `COMPLETED` update / `catch`): branches on substrings of the task's
name and returns `currentTaskResult`, or the message of the error thrown. -/
def runTaskBody (plan : ExecutionPlan) (projectId modelId : String)
    (ctx : AgentContext) (o : ExecOracle) (i : Nat) (task : Task)
    (previousTaskResult : JSValue) (s : ExecM) : Except String JSValue × ExecM :=
  if jsIncludes task.name "Description" || jsIncludes task.name "Brief" then
    let inputs := ctx.getInputsByIds projectId task.arguments.inputIds
    let s1 := emit s (.descCall inputs task.arguments.refinementText plan.systemPrompt)
    let description := generateModelDescription inputs task.arguments.refinementText
      plan.systemPrompt (o.descOutcome i)
    if jsStartsWith description "Failed" then (.error description, s1)
    else
      let s2 := emit s1 (.modelUpdate modelId
        { description := some description, status := some .GENERATING })
      (.ok (.vstr description), s2)
  else if jsIncludes task.name "Code & BOM" || jsIncludes task.name "Geometry & Materials" then
    if !(jsTruthy previousTaskResult) then
      (.error "Description from previous step was not available.", s)
    else
      let s1 := emit s (.structCall (jsDisplay previousTaskResult) plan.systemPrompt)
      match generateModelData (jsDisplay previousTaskResult) plan.systemPrompt
        (o.structAttempts i) with
      | .ok b =>
        let s2 := emit s1 (.modelUpdate modelId
          { modelCode := some b.modelCode
          , billOfMaterials := some b.billOfMaterials
          , engineeringRationale := some b.engineeringRationale
          , status := some .COMPLETED })
        (.ok (.vbundle b), s2)
      | .error msg => (.error msg, s1)
  else (.ok .vundef, s)

/-- One full iteration of the executor's loop (the `try`/`catch` around one
task): `some r` means continue with `previousTaskResult := r`; `none` means
the `catch` ran and the executor returns. -/
def runOneTask (plan : ExecutionPlan) (projectId modelId : String)
    (ctx : AgentContext) (o : ExecOracle) (i : Nat) (task : Task)
    (previousTaskResult : JSValue) (s : ExecM) : Option JSValue × ExecM :=
  let sA := emitTaskStart o task s
  match runTaskBody plan projectId modelId ctx o i task previousTaskResult sA with
  | (.ok r, sB) => (some r, emitTaskComplete o task r sB)
  | (.error msg, sB) => (none, emitFailure o plan.id modelId task msg sB)

/-- The executor's loop over the (index, task) pairs of the plan; after the
last task completes, the plan is marked `COMPLETED`. -/
def execTasks (plan : ExecutionPlan) (projectId modelId : String)
    (ctx : AgentContext) (o : ExecOracle) :
    List (Nat × Task) → JSValue → ExecM → ExecM
  | [], _, s => emit s (.planUpdate plan.id { status := some .COMPLETED })
  | (i, task) :: rest, previousTaskResult, s =>
    match runOneTask plan projectId modelId ctx o i task previousTaskResult s with
    | (some r, s') => execTasks plan projectId modelId ctx o rest r s'
    | (none, s') => s'

/-- Function `executePlan` from `agent/index.ts`. A falsy `plan.modelId` (absent or
empty) fails the plan before any task runs; otherwise the plan is marked
`IN_PROGRESS` and the loop starts with `previousTaskResult = null`. -/
def executePlan (plan : ExecutionPlan) (projectId : String)
    (ctx : AgentContext) (o : ExecOracle) : ExecM :=
  match plan.modelId with
  | none => emit {} (.planUpdate plan.id { status := some .FAILED })
  | some modelId =>
    if modelId = "" then emit {} (.planUpdate plan.id { status := some .FAILED })
    else
      let s1 := emit {} (.planUpdate plan.id { status := some .IN_PROGRESS })
      execTasks plan projectId modelId ctx o plan.tasks.enum .vnull s1

/-- The stored plan/task/model state reached after the first `n` tasks all
succeeded: the running `previousTaskResult` and trace. `none` when the
executor already returned (an earlier task failed, or `n` exceeds the
plan). Used to express "execution reaches task `n`". -/
def execState (plan : ExecutionPlan) (projectId modelId : String)
    (ctx : AgentContext) (o : ExecOracle) : Nat → Option (JSValue × ExecM)
  | 0 => some (.vnull, emit {} (.planUpdate plan.id { status := some .IN_PROGRESS }))
  | n + 1 =>
    match execState plan projectId modelId ctx o n with
    | none => none
    | some (prev, s) =>
      match plan.tasks.get? n with
      | none => none
      | some t =>
        match runOneTask plan projectId modelId ctx o n t prev s with
        | (some r, s') => some (r, s')
        | (none, _) => none

/-- Shallow merge `{ ...task, ...updates }` as `updateTaskInPlan` applies
it in `AgentContext.tsx`. -/
def mergeTaskFields (t : Task) (f : TaskUpdateFields) : Task :=
  { t with
    status := f.status.getD t.status
  , result := match f.result with | some v => some v | none => t.result
  , error := match f.error with | some e => some e | none => t.error
  , startedAt := match f.startedAt with | some a => some a | none => t.startedAt
  , completedAt := match f.completedAt with | some a => some a | none => t.completedAt
  , arguments := f.arguments.getD t.arguments }

/-- Shallow merge `{ ...model, ...updates }` as `updateModel` applies it. -/
def mergeModelFields (m : ModelRecord) (f : ModelUpdateFields) : ModelRecord :=
  { m with
    description := match f.description with | some d => some d | none => m.description
  , modelCode := match f.modelCode with | some c => some c | none => m.modelCode
  , billOfMaterials := match f.billOfMaterials with | some b => some b | none => m.billOfMaterials
  , engineeringRationale := match f.engineeringRationale with | some r => some r | none => m.engineeringRationale
  , status := f.status.getD m.status
  , failureReason := match f.failureReason with | some r => some r | none => m.failureReason }

/-- The stored copy of task `t` after replaying a trace: each
`updateTaskInPlan` request whose id matches is merged in order. -/
def finalTask (events : List Event) (t : Task) : Task :=
  events.foldl (fun acc e =>
    match e with
    | .taskUpdate tid f => if tid = acc.id then mergeTaskFields acc f else acc
    | _ => acc) t

/-- The stored plan status after replaying a trace, starting from the
plan's status when execution began. -/
def planStatusAfter (events : List Event) (planId : String)
    (status : TaskStatus) : TaskStatus :=
  events.foldl (fun acc e =>
    match e with
    | .planUpdate pid f => if pid = planId then f.status.getD acc else acc
    | _ => acc) status

/-- The stored model record after replaying a trace. -/
def finalModel (events : List Event) (m : ModelRecord) : ModelRecord :=
  events.foldl (fun acc e =>
    match e with
    | .modelUpdate mid f => if mid = acc.id then mergeModelFields acc f else acc
    | _ => acc) m

/-- All `updateTaskInPlan` requests in a trace addressed to `taskId`, in
order. -/
def taskUpdatesFor (events : List Event) (taskId : String) : List TaskUpdateFields :=
  events.filterMap fun e =>
    match e with
    | .taskUpdate tid f => if tid = taskId then some f else none
    | _ => none

/-- All `updatePlan` requests in a trace addressed to `planId`, in order. -/
def planUpdatesFor (events : List Event) (planId : String) : List PlanUpdateFields :=
  events.filterMap fun e =>
    match e with
    | .planUpdate pid f => if pid = planId then some f else none
    | _ => none

/-- All `updateTaskInPlan` requests in a trace, with their target ids. -/
def taskUpdatesIn (events : List Event) : List (String × TaskUpdateFields) :=
  events.filterMap fun e =>
    match e with
    | .taskUpdate tid f => some (tid, f)
    | _ => none

/-- All `updateModel` requests in a trace, with their target ids. -/
def modelUpdatesIn (events : List Event) : List (String × ModelUpdateFields) :=
  events.filterMap fun e =>
    match e with
    | .modelUpdate mid f => some (mid, f)
    | _ => none

/-- All invocations of the description collaborator in a trace. -/
def descCallsIn (events : List Event) :
    List (List DesignInput × Option String × Option String) :=
  events.filterMap fun e =>
    match e with
    | .descCall inputs rt sp => some (inputs, rt, sp)
    | _ => none

/-- All invocations of the structured-generation collaborator in a trace. -/
def structCallsIn (events : List Event) : List (String × Option String) :=
  events.filterMap fun e =>
    match e with
    | .structCall d sp => some (d, sp)
    | _ => none

/-- Event classifier: is this an `updateTaskInPlan` request? -/
def Event.isTaskUpd : Event → Bool
  | .taskUpdate _ _ => true
  | _ => false

/-- Event classifier: is this an `updatePlan` request? -/
def Event.isPlanUpd : Event → Bool
  | .planUpdate _ _ => true
  | _ => false

/-- True when no `updateTaskInPlan` request in the trace carries an
`arguments` key — i.e. the executor never writes back task arguments. -/
def noArgWrites (events : List Event) : Bool :=
  events.all fun e =>
    match e with
    | .taskUpdate _ f => f.arguments.isNone
    | _ => true

/-- Scenario arguments: `inputIds = ["input-1"]`, `modelId = "model-1"`. -/
def argsA : GoalArgs := { inputIds := some ["input-1"], modelId := some "model-1" }

/-- The Scenario A/B plan: goal `generate`, built at time 0. -/
def planA : ExecutionPlan :=
  createExecutionPlan "generate" argsA none 0 "2024-01-01T00:00:00.000Z"

/-- A concrete context collaborator whose input lookup finds nothing. -/
def ctx0 : AgentContext := ⟨fun _ _ => []⟩

/-- A concrete generated component string that passes every validation
step of `generateModelData`. -/
def mcA : String := "export default 42"

/-- A concrete bill of materials. -/
def bomA : List BillOfMaterialsItem := [⟨"I-beam", 4, "steel"⟩]

/-- Scenario A oracle: the description call returns `"A 10m steel frame"`
and the structured call succeeds on its first attempt. -/
def oracleA : ExecOracle :=
  { time := fun n => "time-" ++ toString n
  , descOutcome := fun _ => .success "A 10m steel frame"
  , structAttempts := fun _ _ => .parsed mcA bomA "r" true "" }

/-- Scenario B oracle: the underlying description call throws
`Error("network error")`, so the collaborator returns the sentinel string
`"Failed to generate model: network error"`. -/
def oracleB : ExecOracle :=
  { oracleA with descOutcome := fun _ => .errorThrow "network error" }

/-- Oracle in which the underlying description call throws a non-`Error`
value. -/
def oracleU : ExecOracle :=
  { oracleA with descOutcome := fun _ => .nonErrorThrow "boom" }

/-- Oracle in which every attempt of the structured-generation call throws
`Error("network down")`. -/
def oracleS : ExecOracle :=
  { oracleA with structAttempts := fun _ _ => .apiThrow "network down" }

/-- A plan built with an unsupported goal and no target model id: the
builder returns it with an empty task list and empty goal text. -/
def planEmpty : ExecutionPlan :=
  createExecutionPlan "analyze" {} none 0 "2024-01-01T00:00:00.000Z"

/-- A hand-written task whose name matches none of the executor's dispatch
substrings. -/
def taskCustom : Task :=
  { id := "plan-x-task-1"
  , name := "Attaching BIM Data"
  , description := "A task kind the dispatcher does not recognize."
  , status := TaskStatus.PENDING
  , toolName := ToolName.BIM_DATA_ATTACHER
  , arguments := {} }

/-- A hand-written geometry-class task (name matches the geometry branch). -/
def taskGeo : Task :=
  { id := "plan-x-task-2"
  , name := "Generating 3D Geometry & Materials"
  , description := "A geometry task placed after the unrecognized task."
  , status := TaskStatus.PENDING
  , toolName := ToolName.INITIAL_MODEL_GENERATOR
  , arguments := {} }

/-- The first task of `planA` (spelled out as the builder constructs it). -/
def taskA1 : Task :=
  { id := "plan-0-task-1"
  , name := "Analyzing Inputs & Creating Brief"
  , description := "AI will analyze the provided inputs to create a technical description of the 3D model."
  , status := TaskStatus.PENDING
  , toolName := ToolName.INITIAL_MODEL_GENERATOR
  , arguments := { inputIds := some ["input-1"] } }

/-- The second task of `planA` (spelled out as the builder constructs it). -/
def taskA2 : Task :=
  { id := "plan-0-task-2"
  , name := "Generating 3D Geometry & Materials"
  , description := "AI will convert the technical description into a renderable component and a Bill of Materials."
  , status := TaskStatus.PENDING
  , toolName := ToolName.INITIAL_MODEL_GENERATOR
  , arguments := {} }

/-- The executor state right before the first task of `planA` starts. -/
def s0W : ExecM :=
  { events := [.planUpdate "plan-0" { status := some .IN_PROGRESS }], tick := 0 }

/-- The executor state at the moment task 1 of `planA` throws under
`oracleB` (plan in progress, task 1 started, description collaborator
called). -/
def s2W : ExecM :=
  { events := [.planUpdate "plan-0" { status := some .IN_PROGRESS },
      .taskUpdate "plan-0-task-1" { status := some .IN_PROGRESS, startedAt := some "time-0" },
      .descCall [] none none]
  , tick := 1 }

deriving instance DecidableEq for Except

/-! ## Basic lemmas about trace replay -/

theorem finalTask_append (es1 es2 : List Event) (t : Task) :
    finalTask (es1 ++ es2) t = finalTask es2 (finalTask es1 t) :=
  List.foldl_append _ _ _ _

theorem planStatusAfter_append (es1 es2 : List Event) (pid : String) (st : TaskStatus) :
    planStatusAfter (es1 ++ es2) pid st = planStatusAfter es2 pid (planStatusAfter es1 pid st) :=
  List.foldl_append _ _ _ _

theorem finalModel_append (es1 es2 : List Event) (m : ModelRecord) :
    finalModel (es1 ++ es2) m = finalModel es2 (finalModel es1 m) :=
  List.foldl_append _ _ _ _

theorem mergeTaskFields_id (t : Task) (f : TaskUpdateFields) :
    (mergeTaskFields t f).id = t.id := rfl

theorem mergeModelFields_id (m : ModelRecord) (f : ModelUpdateFields) :
    (mergeModelFields m f).id = m.id := rfl

theorem finalTask_id (es : List Event) (t : Task) :
    (finalTask es t).id = t.id := by
  induction es generalizing t with
  | nil => rfl
  | cons e es ih =>
    cases e with
    | taskUpdate tid f =>
      by_cases h : tid = t.id
      · simpa [finalTask, h] using ih (mergeTaskFields t f)
      · simpa [finalTask, h] using ih t
    | planUpdate pid f => simpa [finalTask] using ih t
    | modelUpdate mid f => simpa [finalTask] using ih t
    | descCall a b c => simpa [finalTask] using ih t
    | structCall a b => simpa [finalTask] using ih t

theorem finalModel_id (es : List Event) (m : ModelRecord) :
    (finalModel es m).id = m.id := by
  induction es generalizing m with
  | nil => rfl
  | cons e es ih =>
    cases e with
    | modelUpdate mid f =>
      by_cases h : mid = m.id
      · simpa [finalModel, h] using ih (mergeModelFields m f)
      · simpa [finalModel, h] using ih m
    | planUpdate pid f => simpa [finalModel] using ih m
    | taskUpdate tid f => simpa [finalModel] using ih m
    | descCall a b c => simpa [finalModel] using ih m
    | structCall a b => simpa [finalModel] using ih m

theorem finalTask_eq_fold (es : List Event) (t : Task) :
    finalTask es t = (taskUpdatesFor es t.id).foldl mergeTaskFields t := by
  induction es generalizing t with
  | nil => rfl
  | cons e es ih =>
    cases e with
    | taskUpdate tid f =>
      by_cases h : tid = t.id
      · have := ih (mergeTaskFields t f)
        rw [mergeTaskFields_id] at this
        simpa [finalTask, taskUpdatesFor, h] using this
      · simpa [finalTask, taskUpdatesFor, h] using ih t
    | planUpdate pid f => simpa [finalTask, taskUpdatesFor] using ih t
    | modelUpdate mid f => simpa [finalTask, taskUpdatesFor] using ih t
    | descCall a b c => simpa [finalTask, taskUpdatesFor] using ih t
    | structCall a b => simpa [finalTask, taskUpdatesFor] using ih t

theorem planStatusAfter_eq_fold (es : List Event) (pid : String) (st : TaskStatus) :
    planStatusAfter es pid st =
      (planUpdatesFor es pid).foldl (fun acc f => f.status.getD acc) st := by
  induction es generalizing st with
  | nil => rfl
  | cons e es ih =>
    cases e with
    | planUpdate pid' f =>
      by_cases h : pid' = pid
      · simpa [planStatusAfter, planUpdatesFor, h] using ih (f.status.getD st)
      · simpa [planStatusAfter, planUpdatesFor, h] using ih st
    | taskUpdate tid f => simpa [planStatusAfter, planUpdatesFor] using ih st
    | modelUpdate mid f => simpa [planStatusAfter, planUpdatesFor] using ih st
    | descCall a b c => simpa [planStatusAfter, planUpdatesFor] using ih st
    | structCall a b => simpa [planStatusAfter, planUpdatesFor] using ih st

theorem taskUpdatesFor_append (es1 es2 : List Event) (tid : String) :
    taskUpdatesFor (es1 ++ es2) tid = taskUpdatesFor es1 tid ++ taskUpdatesFor es2 tid :=
  List.filterMap_append _ _ _

theorem planUpdatesFor_append (es1 es2 : List Event) (pid : String) :
    planUpdatesFor (es1 ++ es2) pid = planUpdatesFor es1 pid ++ planUpdatesFor es2 pid :=
  List.filterMap_append _ _ _

theorem finalTask_of_no_updates (es : List Event) (t : Task)
    (h : taskUpdatesFor es t.id = []) : finalTask es t = t := by
  rw [finalTask_eq_fold, h]
  rfl

theorem exists_concat_of_getLast?_eq_some {α : Type} {l : List α} {a : α}
    (h : l.getLast? = some a) : ∃ l', l = l' ++ [a] := by
  induction l with
  | nil => simp at h
  | cons b l ih =>
    cases l with
    | nil =>
      simp [List.getLast?] at h
      exact ⟨[], by simp [h]⟩
    | cons c l' =>
      rw [List.getLast?_cons_cons] at h
      obtain ⟨m, hm⟩ := ih h
      exact ⟨b :: m, by simp [hm]⟩

theorem finalTask_status_of_last (es : List Event) (t : Task)
    (f : TaskUpdateFields) (st : TaskStatus)
    (h : (taskUpdatesFor es t.id).getLast? = some f) (hs : f.status = some st) :
    (finalTask es t).status = st := by
  obtain ⟨pre, hpre⟩ := exists_concat_of_getLast?_eq_some h
  rw [finalTask_eq_fold, hpre, List.foldl_append]
  simp [mergeTaskFields, hs]

/-! ## Shape of the events emitted by one task execution -/

theorem taskUpdatesFor_of_no_taskUpd (es : List Event)
    (h : ∀ e ∈ es, e.isTaskUpd = false) (tid : String) :
    taskUpdatesFor es tid = [] := by
  induction es with
  | nil => rfl
  | cons e es ih =>
    have he := h e (by simp)
    have hrest := ih (fun e' he' => h e' (by simp [he']))
    cases e <;> simp_all [taskUpdatesFor, Event.isTaskUpd]

theorem planUpdatesFor_of_no_planUpd (es : List Event)
    (h : ∀ e ∈ es, e.isPlanUpd = false) (pid : String) :
    planUpdatesFor es pid = [] := by
  induction es with
  | nil => rfl
  | cons e es ih =>
    have he := h e (by simp)
    have hrest := ih (fun e' he' => h e' (by simp [he']))
    cases e <;> simp_all [planUpdatesFor, Event.isPlanUpd]

theorem runTaskBody_proj (plan : ExecutionPlan) (projectId modelId : String)
    (ctx : AgentContext) (o : ExecOracle) (i : Nat) (t : Task) (prev : JSValue)
    (s : ExecM) :
    (∀ tid, taskUpdatesFor (runTaskBody plan projectId modelId ctx o i t prev s).2.events tid
        = taskUpdatesFor s.events tid) ∧
    (∀ pid, planUpdatesFor (runTaskBody plan projectId modelId ctx o i t prev s).2.events pid
        = planUpdatesFor s.events pid) ∧
    noArgWrites (runTaskBody plan projectId modelId ctx o i t prev s).2.events
      = noArgWrites s.events := by
  by_cases h1 : (jsIncludes t.name "Description" || jsIncludes t.name "Brief") = true
  · by_cases h2 : jsStartsWith (generateModelDescription
        (ctx.getInputsByIds projectId t.arguments.inputIds)
        t.arguments.refinementText plan.systemPrompt (o.descOutcome i)) "Failed" = true
    all_goals refine ⟨fun tid => ?_, fun pid => ?_, ?_⟩
    all_goals simp [runTaskBody, h1, h2, emit, taskUpdatesFor, planUpdatesFor, noArgWrites]
  · by_cases h3 : (jsIncludes t.name "Code & BOM" ||
        jsIncludes t.name "Geometry & Materials") = true
    · by_cases h4 : (!jsTruthy prev) = true
      · refine ⟨fun tid => ?_, fun pid => ?_, ?_⟩
        all_goals simp [runTaskBody, h1, h3, h4]
      · cases hgen : generateModelData (jsDisplay prev) plan.systemPrompt
          (o.structAttempts i) with
        | ok b =>
          refine ⟨fun tid => ?_, fun pid => ?_, ?_⟩
          all_goals simp [runTaskBody, h1, h3, h4, hgen, emit, taskUpdatesFor,
            planUpdatesFor, noArgWrites]
        | error msg =>
          refine ⟨fun tid => ?_, fun pid => ?_, ?_⟩
          all_goals simp [runTaskBody, h1, h3, h4, hgen, emit, taskUpdatesFor,
            planUpdatesFor, noArgWrites]
    · refine ⟨fun tid => ?_, fun pid => ?_, ?_⟩
      all_goals simp [runTaskBody, h1, h3]

theorem emitTaskStart_taskUpdatesFor (o : ExecOracle) (t : Task) (s : ExecM) (tid : String) :
    taskUpdatesFor (emitTaskStart o t s).events tid
      = taskUpdatesFor s.events tid ++ (if tid = t.id then
        [{ status := some .IN_PROGRESS, startedAt := some (o.time s.tick) }] else []) := by
  by_cases htid : tid = t.id
  all_goals simp [emitTaskStart, emit, taskUpdatesFor, List.filterMap_append, htid]
  · exact fun h' => absurd h'.symm htid

theorem emitTaskStart_planUpdatesFor (o : ExecOracle) (t : Task) (s : ExecM) (pid : String) :
    planUpdatesFor (emitTaskStart o t s).events pid = planUpdatesFor s.events pid := by
  simp [emitTaskStart, emit, planUpdatesFor, List.filterMap_append]

theorem emitTaskStart_noArgWrites (o : ExecOracle) (t : Task) (s : ExecM) :
    noArgWrites (emitTaskStart o t s).events = noArgWrites s.events := by
  simp [emitTaskStart, emit, noArgWrites, List.all_append]

theorem emitTaskComplete_taskUpdatesFor (o : ExecOracle) (t : Task) (r : JSValue)
    (s : ExecM) (tid : String) :
    taskUpdatesFor (emitTaskComplete o t r s).events tid
      = taskUpdatesFor s.events tid ++ (if tid = t.id then
        [{ status := some .COMPLETED, result := some r,
           completedAt := some (o.time s.tick) }] else []) := by
  by_cases htid : tid = t.id
  all_goals simp [emitTaskComplete, emit, taskUpdatesFor, List.filterMap_append, htid]
  · exact fun h' => absurd h'.symm htid

theorem emitTaskComplete_planUpdatesFor (o : ExecOracle) (t : Task) (r : JSValue)
    (s : ExecM) (pid : String) :
    planUpdatesFor (emitTaskComplete o t r s).events pid = planUpdatesFor s.events pid := by
  simp [emitTaskComplete, emit, planUpdatesFor, List.filterMap_append]

theorem emitTaskComplete_noArgWrites (o : ExecOracle) (t : Task) (r : JSValue) (s : ExecM) :
    noArgWrites (emitTaskComplete o t r s).events = noArgWrites s.events := by
  simp [emitTaskComplete, emit, noArgWrites, List.all_append]

theorem emitFailure_taskUpdatesFor (o : ExecOracle) (planId modelId : String) (t : Task)
    (msg : String) (s : ExecM) (tid : String) :
    taskUpdatesFor (emitFailure o planId modelId t msg s).events tid
      = taskUpdatesFor s.events tid ++ (if tid = t.id then
        [{ status := some .FAILED, error := some msg,
           completedAt := some (o.time s.tick) }] else []) := by
  by_cases htid : tid = t.id
  all_goals simp [emitFailure, emit, taskUpdatesFor, List.filterMap_append, htid]
  · exact fun h' => absurd h'.symm htid

theorem emitFailure_planUpdatesFor (o : ExecOracle) (planId modelId : String) (t : Task)
    (msg : String) (s : ExecM) (pid : String) :
    planUpdatesFor (emitFailure o planId modelId t msg s).events pid
      = planUpdatesFor s.events pid ++ (if pid = planId then
        [{ status := some TaskStatus.FAILED }] else []) := by
  by_cases hpid : pid = planId
  all_goals simp [emitFailure, emit, planUpdatesFor, List.filterMap_append, hpid]
  · exact fun h' => absurd h'.symm hpid

theorem emitFailure_noArgWrites (o : ExecOracle) (planId modelId : String) (t : Task)
    (msg : String) (s : ExecM) :
    noArgWrites (emitFailure o planId modelId t msg s).events = noArgWrites s.events := by
  simp [emitFailure, emit, noArgWrites, List.all_append]

theorem runOneTask_success_proj (plan : ExecutionPlan) (projectId modelId : String)
    (ctx : AgentContext) (o : ExecOracle) (i : Nat) (t : Task) (prev : JSValue)
    (s : ExecM) (r : JSValue) (s' : ExecM)
    (h : runOneTask plan projectId modelId ctx o i t prev s = (some r, s')) :
    (∀ pid, planUpdatesFor s'.events pid = planUpdatesFor s.events pid) ∧
    (∀ tid, tid ≠ t.id → taskUpdatesFor s'.events tid = taskUpdatesFor s.events tid) ∧
    (∃ pre f, taskUpdatesFor s'.events t.id = pre ++ [f] ∧ f.status = some .COMPLETED ∧
      f.result = some r) ∧
    noArgWrites s'.events = noArgWrites s.events := by
  obtain ⟨hbt, hbp, hba⟩ := runTaskBody_proj plan projectId modelId ctx o i t prev
    (emitTaskStart o t s)
  rcases hb : runTaskBody plan projectId modelId ctx o i t prev (emitTaskStart o t s) with
    ⟨res, sB⟩
  rw [hb] at hbt hbp hba
  simp only [runOneTask, hb] at h
  cases res with
  | error msg => simp at h
  | ok r' =>
    simp only [Prod.mk.injEq, Option.some.injEq] at h
    obtain ⟨hr, hs⟩ := h
    subst hr
    subst hs
    have hBt : ∀ tid, taskUpdatesFor sB.events tid = taskUpdatesFor s.events tid ++
        (if tid = t.id then
          [({ status := some TaskStatus.IN_PROGRESS, startedAt := some (o.time s.tick) } : TaskUpdateFields)]
        else []) := by
      intro tid
      rw [hbt tid, emitTaskStart_taskUpdatesFor]
    refine ⟨fun pid => ?_, fun tid htid => ?_, ?_, ?_⟩
    · rw [emitTaskComplete_planUpdatesFor, hbp pid, emitTaskStart_planUpdatesFor]
    · rw [emitTaskComplete_taskUpdatesFor, hBt tid]
      simp [htid]
    · refine ⟨taskUpdatesFor sB.events t.id,
        { status := some .COMPLETED, result := some r',
          completedAt := some (o.time sB.tick) }, ?_, rfl, rfl⟩
      rw [emitTaskComplete_taskUpdatesFor]
      simp
    · rw [emitTaskComplete_noArgWrites, hba, emitTaskStart_noArgWrites]

theorem runOneTask_failure_proj (plan : ExecutionPlan) (projectId modelId : String)
    (ctx : AgentContext) (o : ExecOracle) (i : Nat) (t : Task) (prev : JSValue)
    (s : ExecM) (s' : ExecM)
    (h : runOneTask plan projectId modelId ctx o i t prev s = (none, s')) :
    (∀ pid, planUpdatesFor s'.events pid = planUpdatesFor s.events pid ++
      (if pid = plan.id then [{ status := some TaskStatus.FAILED }] else [])) ∧
    (∀ tid, tid ≠ t.id → taskUpdatesFor s'.events tid = taskUpdatesFor s.events tid) ∧
    (∃ pre f, taskUpdatesFor s'.events t.id = pre ++ [f] ∧ f.status = some .FAILED) ∧
    noArgWrites s'.events = noArgWrites s.events := by
  obtain ⟨hbt, hbp, hba⟩ := runTaskBody_proj plan projectId modelId ctx o i t prev
    (emitTaskStart o t s)
  rcases hb : runTaskBody plan projectId modelId ctx o i t prev (emitTaskStart o t s) with
    ⟨res, sB⟩
  rw [hb] at hbt hbp hba
  simp only [runOneTask, hb] at h
  cases res with
  | ok r' => simp at h
  | error msg =>
    simp only [Prod.mk.injEq] at h
    obtain ⟨-, hs⟩ := h
    subst hs
    have hBt : ∀ tid, taskUpdatesFor sB.events tid = taskUpdatesFor s.events tid ++
        (if tid = t.id then
          [({ status := some TaskStatus.IN_PROGRESS, startedAt := some (o.time s.tick) } : TaskUpdateFields)]
        else []) := by
      intro tid
      rw [hbt tid, emitTaskStart_taskUpdatesFor]
    refine ⟨fun pid => ?_, fun tid htid => ?_, ?_, ?_⟩
    · rw [emitFailure_planUpdatesFor, hbp pid, emitTaskStart_planUpdatesFor]
    · rw [emitFailure_taskUpdatesFor, hBt tid]
      simp [htid]
    · refine ⟨taskUpdatesFor sB.events t.id,
        { status := some .FAILED, error := some msg,
          completedAt := some (o.time sB.tick) }, ?_, rfl⟩
      rw [emitFailure_taskUpdatesFor]
      simp
    · rw [emitFailure_noArgWrites, hba, emitTaskStart_noArgWrites]

/-! ## Shape of a whole loop execution -/

theorem execTasks_shape (plan : ExecutionPlan) (projectId modelId : String)
    (ctx : AgentContext) (o : ExecOracle) :
    ∀ (L : List (Nat × Task)) (prev : JSValue) (s : ExecM),
    (∃ sMid, execTasks plan projectId modelId ctx o L prev s
        = emit sMid (.planUpdate plan.id { status := some TaskStatus.COMPLETED }) ∧
      (∀ pid, planUpdatesFor sMid.events pid = planUpdatesFor s.events pid) ∧
      (∀ tid, (∀ p ∈ L, (p : Nat × Task).2.id ≠ tid) →
        taskUpdatesFor sMid.events tid = taskUpdatesFor s.events tid) ∧
      (∀ p ∈ L, ∃ pre f, taskUpdatesFor sMid.events (p : Nat × Task).2.id = pre ++ [f] ∧
        f.status = some TaskStatus.COMPLETED) ∧
      noArgWrites sMid.events = noArgWrites s.events)
    ∨ (∃ jt sEnd, jt ∈ L ∧
      execTasks plan projectId modelId ctx o L prev s = sEnd ∧
      (∀ pid, planUpdatesFor sEnd.events pid = planUpdatesFor s.events pid ++
        (if pid = plan.id then [{ status := some TaskStatus.FAILED }] else [])) ∧
      (∃ pre f, taskUpdatesFor sEnd.events (jt : Nat × Task).2.id = pre ++ [f] ∧
        f.status = some TaskStatus.FAILED) ∧
      (∀ tid, (∀ p ∈ L, (p : Nat × Task).2.id ≠ tid) →
        taskUpdatesFor sEnd.events tid = taskUpdatesFor s.events tid) ∧
      noArgWrites sEnd.events = noArgWrites s.events) := by
  intro L
  induction L with
  | nil =>
    intro prev s
    left
    exact ⟨s, rfl, fun _ => rfl, fun _ _ => rfl, by simp, rfl⟩
  | cons it L ih =>
    intro prev s
    rcases it with ⟨i, t⟩
    rcases hr : runOneTask plan projectId modelId ctx o i t prev s with ⟨res, s1⟩
    cases res with
    | some r =>
      have hstep : execTasks plan projectId modelId ctx o ((i, t) :: L) prev s
          = execTasks plan projectId modelId ctx o L r s1 := by
        simp [execTasks, hr]
      obtain ⟨hplan1, htid1, hlast1, harg1⟩ :=
        runOneTask_success_proj plan projectId modelId ctx o i t prev s r s1 hr
      rcases ih r s1 with ⟨sMid, heq, hplan, htid, hcomp, harg⟩ |
        ⟨jt, sEnd, hjt, heq, hplan, hfail, htid, harg⟩
      · left
        refine ⟨sMid, hstep.trans heq, ?_, ?_, ?_, harg.trans (harg1)⟩
        · intro pid
          rw [hplan pid, hplan1 pid]
        · intro tid hne
          have hneL : ∀ p ∈ L, (p : Nat × Task).2.id ≠ tid :=
            fun p hp => hne p (List.mem_cons_of_mem _ hp)
          have hnet : t.id ≠ tid := hne (i, t) (List.mem_cons_self _ _)
          rw [htid tid hneL, htid1 tid (fun h => hnet h.symm)]
        · rintro ⟨j, u⟩ hu
          rcases List.mem_cons.mp hu with hu0 | huL
          · have hut : u = t := congrArg Prod.snd hu0
            subst hut
            by_cases hq : ∀ p ∈ L, (p : Nat × Task).2.id ≠ u.id
            · obtain ⟨pre, f, hpre, hf, -⟩ := hlast1
              exact ⟨pre, f, (htid u.id hq).trans hpre, hf⟩
            · push_neg at hq
              obtain ⟨q, hqL, hq⟩ := hq
              have := hcomp q hqL
              rw [hq] at this
              exact this
          · exact hcomp ⟨j, u⟩ huL
      · right
        refine ⟨jt, sEnd, List.mem_cons_of_mem _ hjt, hstep.trans heq, ?_, hfail, ?_,
          harg.trans harg1⟩
        · intro pid
          rw [hplan pid, hplan1 pid]
        · intro tid hne
          have hneL : ∀ p ∈ L, (p : Nat × Task).2.id ≠ tid :=
            fun p hp => hne p (List.mem_cons_of_mem _ hp)
          have hnet : t.id ≠ tid := hne (i, t) (List.mem_cons_self _ _)
          rw [htid tid hneL, htid1 tid (fun h => hnet h.symm)]
    | none =>
      have hstep : execTasks plan projectId modelId ctx o ((i, t) :: L) prev s = s1 := by
        simp [execTasks, hr]
      obtain ⟨hplan1, htid1, hlast1, harg1⟩ :=
        runOneTask_failure_proj plan projectId modelId ctx o i t prev s s1 hr
      right
      refine ⟨(i, t), s1, List.mem_cons_self _ _, hstep, hplan1, hlast1, ?_, harg1⟩
      intro tid hne
      have hnet : t.id ≠ tid := hne (i, t) (List.mem_cons_self _ _)
      exact htid1 tid (fun h => hnet h.symm)

theorem executePlan_shape (plan : ExecutionPlan) (projectId : String) (ctx : AgentContext)
    (o : ExecOracle) (mid : String) (hmid : plan.modelId = some mid) (hne : mid ≠ "") :
    (∃ sMid, executePlan plan projectId ctx o
        = emit sMid (.planUpdate plan.id { status := some TaskStatus.COMPLETED }) ∧
      planUpdatesFor sMid.events plan.id = [{ status := some TaskStatus.IN_PROGRESS }] ∧
      (∀ t ∈ plan.tasks, ∃ pre f, taskUpdatesFor sMid.events t.id = pre ++ [f] ∧
        f.status = some TaskStatus.COMPLETED) ∧
      noArgWrites sMid.events = true)
    ∨ (∃ u sEnd, u ∈ plan.tasks ∧ executePlan plan projectId ctx o = sEnd ∧
      planUpdatesFor sEnd.events plan.id =
        [{ status := some TaskStatus.IN_PROGRESS }, { status := some TaskStatus.FAILED }] ∧
      (∃ pre f, taskUpdatesFor sEnd.events u.id = pre ++ [f] ∧
        f.status = some TaskStatus.FAILED) ∧
      noArgWrites sEnd.events = true) := by
  have hrun : executePlan plan projectId ctx o
      = execTasks plan projectId mid ctx o plan.tasks.enum .vnull
        (emit {} (.planUpdate plan.id { status := some TaskStatus.IN_PROGRESS })) := by
    rw [executePlan, hmid]
    simp [hne]
  set s1 := emit ({} : ExecM) (.planUpdate plan.id { status := some TaskStatus.IN_PROGRESS })
    with hs1
  have hs1plan : planUpdatesFor s1.events plan.id = [{ status := some TaskStatus.IN_PROGRESS }] := by
    simp [hs1, emit, planUpdatesFor]
  have hs1task : ∀ tid, taskUpdatesFor s1.events tid = [] := by
    intro tid
    simp [hs1, emit, taskUpdatesFor]
  have hs1arg : noArgWrites s1.events = true := by
    simp [hs1, emit, noArgWrites]
  rcases execTasks_shape plan projectId mid ctx o plan.tasks.enum .vnull s1 with
    ⟨sMid, heq, hplan, htid, hcomp, harg⟩ | ⟨jt, sEnd, hjt, heq, hplan, hfail, htid, harg⟩
  · left
    refine ⟨sMid, hrun.trans heq, (hplan plan.id).trans hs1plan, ?_, harg.trans hs1arg⟩
    intro t ht
    have : t ∈ List.map Prod.snd plan.tasks.enum := by
      rw [List.enum_map_snd]
      exact ht
    obtain ⟨p, hp, hpt⟩ := List.mem_map.mp this
    have := hcomp p hp
    rw [hpt] at this
    exact this
  · right
    have hjmem : (jt : Nat × Task).2 ∈ plan.tasks := by
      rw [← List.enum_map_snd plan.tasks]
      exact List.mem_map.mpr ⟨jt, hjt, rfl⟩
    refine ⟨jt.2, sEnd, hjmem, hrun.trans heq, ?_, hfail, harg.trans hs1arg⟩
    rw [hplan plan.id, hs1plan]
    simp

theorem prefix_concat_cases {α : Type} {p l : List α} {x : α}
    (h : p <+: l ++ [x]) : p <+: l ∨ p = l ++ [x] := by
  rcases h with ⟨r, hr⟩
  cases r with
  | nil => right; rw [← hr]; simp
  | cons y ys =>
    left
    have hlen : p.length ≤ l.length := by
      have := congrArg List.length hr
      simp at this
      omega
    have hp : p = (l ++ [x]).take p.length := List.prefix_iff_eq_take.mp ⟨y :: ys, hr⟩
    rw [List.take_append_of_le_length hlen] at hp
    rw [hp]
    exact List.take_prefix _ _

theorem filterMap_prefix {α β : Type} {p es : List α} (f : α → Option β)
    (h : p <+: es) : List.filterMap f p <+: List.filterMap f es := by
  rcases h with ⟨r, hr⟩
  rw [← hr, List.filterMap_append]
  exact List.prefix_append _ _

theorem planUpdatesFor_prefix {p es : List Event} (pid : String) (h : p <+: es) :
    planUpdatesFor p pid <+: planUpdatesFor es pid :=
  filterMap_prefix _ h

/-! ## Reaching a given task position -/

theorem executePlan_eq_of_execState (plan : ExecutionPlan) (projectId : String)
    (ctx : AgentContext) (o : ExecOracle) (mid : String)
    (hmid : plan.modelId = some mid) (hne : mid ≠ "") :
    ∀ n prev s, execState plan projectId mid ctx o n = some (prev, s) →
      executePlan plan projectId ctx o
        = execTasks plan projectId mid ctx o (List.enumFrom n (plan.tasks.drop n)) prev s := by
  intro n
  induction n with
  | zero =>
    intro prev s h
    simp only [execState, Option.some.injEq, Prod.mk.injEq] at h
    obtain ⟨hprev, hs⟩ := h
    subst hprev
    subst hs
    rw [executePlan, hmid]
    simp only [hne, if_neg, ite_false]
    rw [List.drop_zero, ← List.enum_eq_enumFrom]
  | succ n ih =>
    intro prev s h
    rcases h0 : execState plan projectId mid ctx o n with - | ⟨prev0, s0⟩
    · rw [execState, h0] at h
      simp at h
    · rw [execState, h0] at h
      dsimp only at h
      rcases hget : plan.tasks.get? n with - | t
      · rw [hget] at h
        simp at h
      · rw [hget] at h
        dsimp only at h
        rcases hrun : runOneTask plan projectId mid ctx o n t prev0 s0 with ⟨res, s1⟩
        rw [hrun] at h
        cases res with
        | none => simp at h
        | some r =>
          dsimp only at h
          simp only [Option.some.injEq, Prod.mk.injEq] at h
          obtain ⟨hprev, hs⟩ := h
          subst hprev
          subst hs
          obtain ⟨hn, hgetn⟩ := List.get?_eq_some.mp hget
          have hdrop : plan.tasks.drop n = t :: plan.tasks.drop (n + 1) := by
            rw [List.drop_eq_getElem_cons hn]
            simp [← hgetn]
          rw [ih prev0 s0 h0, hdrop, List.enumFrom_cons]
          simp [execTasks, hrun]

theorem execState_taskUpdates (plan : ExecutionPlan) (projectId modelId : String)
    (ctx : AgentContext) (o : ExecOracle) :
    ∀ n prev s, execState plan projectId modelId ctx o n = some (prev, s) →
      ∀ tid, taskUpdatesFor s.events tid ≠ [] →
        ∃ k, ∃ hk : k < plan.tasks.length, k < n ∧ (plan.tasks.get ⟨k, hk⟩).id = tid := by
  intro n
  induction n with
  | zero =>
    intro prev s h tid hnil
    simp only [execState, Option.some.injEq, Prod.mk.injEq] at h
    obtain ⟨-, hs⟩ := h
    rw [← hs] at hnil
    simp [emit, taskUpdatesFor] at hnil
  | succ n ih =>
    intro prev s h tid hnil
    rcases h0 : execState plan projectId modelId ctx o n with - | ⟨prev0, s0⟩
    · rw [execState, h0] at h
      simp at h
    · rw [execState, h0] at h
      dsimp only at h
      rcases hget : plan.tasks.get? n with - | t
      · rw [hget] at h
        simp at h
      · rw [hget] at h
        dsimp only at h
        rcases hrun : runOneTask plan projectId modelId ctx o n t prev0 s0 with ⟨res, s1⟩
        rw [hrun] at h
        cases res with
        | none => simp at h
        | some r =>
          dsimp only at h
          simp only [Option.some.injEq, Prod.mk.injEq] at h
          obtain ⟨-, hs⟩ := h
          subst hs
          obtain ⟨hn, hgetn⟩ := List.get?_eq_some.mp hget
          by_cases htid : tid = t.id
          · exact ⟨n, hn, Nat.lt_succ_self n, by rw [hgetn, htid]⟩
          · obtain ⟨-, htid1, -, -⟩ :=
              runOneTask_success_proj plan projectId modelId ctx o n t prev0 s0 r s1 hrun
            rw [htid1 tid htid] at hnil
            obtain ⟨k, hk, hkn, hkid⟩ := ih prev0 s0 h0 tid hnil
            exact ⟨k, hk, Nat.lt_succ_of_lt hkn, hkid⟩

theorem finalTask_last_fields (es : List Event) (t : Task) (f : TaskUpdateFields)
    (h : (taskUpdatesFor es t.id).getLast? = some f) :
    ∃ x : Task, finalTask es t = mergeTaskFields x f := by
  obtain ⟨pre, hpre⟩ := exists_concat_of_getLast?_eq_some h
  refine ⟨pre.foldl mergeTaskFields t, ?_⟩
  rw [finalTask_eq_fold, hpre, List.foldl_append]
  rfl

theorem nodup_id_get_ne (tasks : List Task) (hnodup : (tasks.map Task.id).Nodup)
    {k j : Nat} (hk : k < tasks.length) (hj : j < tasks.length) (hkj : k ≠ j) :
    (tasks.get ⟨k, hk⟩).id ≠ (tasks.get ⟨j, hj⟩).id := by
  intro he
  have hk2 : k < (tasks.map Task.id).length := by simpa using hk
  have hj2 : j < (tasks.map Task.id).length := by simpa using hj
  have h1 : (tasks.map Task.id).get ⟨k, hk2⟩ = (tasks.map Task.id).get ⟨j, hj2⟩ := by
    rw [List.get_map, List.get_map]
    exact he
  have h2 := hnodup.get_inj_iff.mp h1
  exact hkj (congrArg Fin.val h2)

theorem finalModel_taskUpdate_single (tid : String) (f : TaskUpdateFields) (m : ModelRecord) :
    finalModel [Event.taskUpdate tid f] m = m := rfl

theorem finalModel_planUpdate_single (pid : String) (f : PlanUpdateFields) (m : ModelRecord) :
    finalModel [Event.planUpdate pid f] m = m := rfl

theorem finalModel_modelUpdate_single (mid : String) (f : ModelUpdateFields)
    (m : ModelRecord) (hm : m.id = mid) :
    finalModel [Event.modelUpdate mid f] m = mergeModelFields m f := by
  simp [finalModel, hm]

theorem emitFailure_finalModel (o : ExecOracle) (planId modelId : String) (t : Task)
    (msg : String) (s : ExecM) (m : ModelRecord) (hm : m.id = modelId) :
    (finalModel (emitFailure o planId modelId t msg s).events m).status = ModelStatus.FAILED ∧
    (finalModel (emitFailure o planId modelId t msg s).events m).failureReason
      = some ("Task \"" ++ t.name ++ "\" failed: " ++ msg) := by
  have hev : (emitFailure o planId modelId t msg s).events
      = ((s.events ++ [Event.taskUpdate t.id { status := some TaskStatus.FAILED, error := some msg, completedAt := some (o.time s.tick) }]) ++ [Event.planUpdate planId { status := some TaskStatus.FAILED }]) ++ [Event.modelUpdate modelId { status := some ModelStatus.FAILED, failureReason := some ("Task \"" ++ t.name ++ "\" failed: " ++ msg) }] := rfl
  rw [hev, finalModel_append, finalModel_append, finalModel_append,
    finalModel_taskUpdate_single, finalModel_planUpdate_single,
    finalModel_modelUpdate_single _ _ _ ((finalModel_id _ _).trans hm)]
  constructor
  · simp [mergeModelFields]
  · simp [mergeModelFields]

/-! ## Claim theorems -/

/-- C1 (fail-fast error propagation): whenever execution reaches task `i`
and running its body throws — a collaborator exception, a detected
sentinel-failure string, or the missing-description precondition error all
surface as `Except.error msg` — the executor's whole run equals the
failure epilogue: task `i` is marked `FAILED` with the error's message and
a `completedAt` timestamp, the plan is marked `FAILED`, the model is
marked `FAILED` with a failure reason naming task `i` and its message, and
every task after position `i` receives no update at all, keeping status
`PENDING`. -/
theorem executePlan_fail_fast
    (plan : ExecutionPlan) (projectId : String) (ctx : AgentContext) (o : ExecOracle)
    (mid : String) (i : Nat) (t : Task) (prev : JSValue) (s s2 : ExecM) (msg : String)
    (hmid : plan.modelId = some mid) (hmidne : mid ≠ "")
    (hreach : execState plan projectId mid ctx o i = some (prev, s))
    (hget : plan.tasks.get? i = some t)
    (hfail : runTaskBody plan projectId mid ctx o i t prev (emitTaskStart o t s)
      = (.error msg, s2))
    (hnodup : (plan.tasks.map Task.id).Nodup)
    (hpend : ∀ u ∈ plan.tasks, u.status = TaskStatus.PENDING) :
    executePlan plan projectId ctx o = emitFailure o plan.id mid t msg s2 ∧
    (finalTask (executePlan plan projectId ctx o).events t).status = TaskStatus.FAILED ∧
    (finalTask (executePlan plan projectId ctx o).events t).error = some msg ∧
    (finalTask (executePlan plan projectId ctx o).events t).completedAt
      = some (o.time s2.tick) ∧
    planStatusAfter (executePlan plan projectId ctx o).events plan.id plan.status
      = TaskStatus.FAILED ∧
    (∀ m : ModelRecord, m.id = mid →
      (finalModel (executePlan plan projectId ctx o).events m).status = ModelStatus.FAILED ∧
      (finalModel (executePlan plan projectId ctx o).events m).failureReason
        = some ("Task \"" ++ t.name ++ "\" failed: " ++ msg)) ∧
    (∀ j u, i < j → plan.tasks.get? j = some u →
      taskUpdatesFor (executePlan plan projectId ctx o).events u.id = [] ∧
      finalTask (executePlan plan projectId ctx o).events u = u ∧
      (finalTask (executePlan plan projectId ctx o).events u).status = TaskStatus.PENDING) := by
  obtain ⟨hi, hgeti⟩ := List.get?_eq_some.mp hget
  have htr : executePlan plan projectId ctx o = emitFailure o plan.id mid t msg s2 := by
    have hb := executePlan_eq_of_execState plan projectId ctx o mid hmid hmidne i prev s hreach
    have hdrop : plan.tasks.drop i = t :: plan.tasks.drop (i + 1) := by
      rw [List.drop_eq_getElem_cons hi]
      simp [← hgeti]
    have hrun1 : runOneTask plan projectId mid ctx o i t prev s
        = (none, emitFailure o plan.id mid t msg s2) := by
      simp only [runOneTask, hfail]
    rw [hb, hdrop, List.enumFrom_cons]
    simp [execTasks, hrun1]
  have hlast : (taskUpdatesFor (emitFailure o plan.id mid t msg s2).events t.id).getLast?
      = some { status := some TaskStatus.FAILED, error := some msg,
               completedAt := some (o.time s2.tick) } := by
    rw [emitFailure_taskUpdatesFor]
    simp
  obtain ⟨x, hx⟩ := finalTask_last_fields (emitFailure o plan.id mid t msg s2).events t _ hlast
  refine ⟨htr, ?_, ?_, ?_, ?_, ?_, ?_⟩
  · rw [htr, hx]
    rfl
  · rw [htr, hx]
    rfl
  · rw [htr, hx]
    rfl
  · rw [htr, planStatusAfter_eq_fold, emitFailure_planUpdatesFor]
    simp [List.foldl_append]
  · intro m hm
    rw [htr]
    exact emitFailure_finalModel o plan.id mid t msg s2 m hm
  · intro j u hij hgetj
    obtain ⟨hj, hgetj2⟩ := List.get?_eq_some.mp hgetj
    have hne2 : t.id ≠ u.id := by
      rw [← hgeti, ← hgetj2]
      exact nodup_id_get_ne plan.tasks hnodup hi hj (Nat.ne_of_lt hij)
    have hne2s : ¬(u.id = t.id) := fun h => hne2 h.symm
    have hs2u : taskUpdatesFor s2.events u.id = taskUpdatesFor s.events u.id := by
      have hproj := (runTaskBody_proj plan projectId mid ctx o i t prev
        (emitTaskStart o t s)).1 u.id
      rw [hfail] at hproj
      rw [hproj, emitTaskStart_taskUpdatesFor]
      simp [hne2s]
    have hsu : taskUpdatesFor s.events u.id = [] := by
      by_contra hne3
      obtain ⟨k, hk, hki, hkid⟩ :=
        execState_taskUpdates plan projectId mid ctx o i prev s hreach u.id hne3
      have : (plan.tasks.get ⟨k, hk⟩).id ≠ (plan.tasks.get ⟨j, hj⟩).id :=
        nodup_id_get_ne plan.tasks hnodup hk hj (by omega)
      rw [hkid, hgetj2] at this
      exact this rfl
    have hall : taskUpdatesFor (executePlan plan projectId ctx o).events u.id = [] := by
      rw [htr, emitFailure_taskUpdatesFor, hs2u, hsu]
      simp [hne2s]
    refine ⟨hall, finalTask_of_no_updates _ _ hall, ?_⟩
    rw [finalTask_of_no_updates _ _ hall]
    exact hpend u (List.get?_mem hgetj)

/-- Witness for `executePlan_fail_fast`: the Scenario B run (description
collaborator's underlying call throws `Error("network error")`) instantiates
every hypothesis at task position 0 of `planA`. -/
theorem executePlan_fail_fast_witness :
    (finalTask (executePlan planA "proj-1" ctx0 oracleB).events taskA1).status
      = TaskStatus.FAILED ∧
    planStatusAfter (executePlan planA "proj-1" ctx0 oracleB).events planA.id planA.status
      = TaskStatus.FAILED ∧
    taskUpdatesFor (executePlan planA "proj-1" ctx0 oracleB).events taskA2.id = [] := by
  have h := executePlan_fail_fast planA "proj-1" ctx0 oracleB "model-1" 0 taskA1 .vnull
    s0W s2W "Failed to generate model: network error"
    (by decide) (by decide) (by decide) (by decide) (by decide) (by decide) (by decide)
  exact ⟨h.2.1, h.2.2.2.2.1, (h.2.2.2.2.2.2 1 taskA2 (by decide) (by decide)).1⟩

/-- C2 (Scenario A happy path): for the `generate` plan `planA` run under
`oracleA` (description call returns `"A 10m steel frame"`, structured call
succeeds first try), task 1 ends `COMPLETED` with the description as its
result, task 2 ends `COMPLETED` with the structured bundle, the plan ends
`COMPLETED`, and exactly two model updates are issued: the description with
status `GENERATING`, then code, bill of materials and rationale with status
`COMPLETED`. -/
theorem executePlan_scenarioA :
    (planA.tasks.map fun t =>
      ((finalTask (executePlan planA "proj-1" ctx0 oracleA).events t).status,
       (finalTask (executePlan planA "proj-1" ctx0 oracleA).events t).result))
      = [(TaskStatus.COMPLETED, some (JSValue.vstr "A 10m steel frame")),
         (TaskStatus.COMPLETED, some (JSValue.vbundle ⟨mcA, bomA, "r"⟩))] ∧
    planStatusAfter (executePlan planA "proj-1" ctx0 oracleA).events planA.id planA.status
      = TaskStatus.COMPLETED ∧
    modelUpdatesIn (executePlan planA "proj-1" ctx0 oracleA).events
      = [("model-1", { description := some "A 10m steel frame", status := some ModelStatus.GENERATING }),
         ("model-1", { modelCode := some mcA, billOfMaterials := some bomA, engineeringRationale := some "r", status := some ModelStatus.COMPLETED })] := by
  decide

/-- C3 (missing-modelId precondition): a plan whose `modelId` is absent or
empty is immediately marked `FAILED` and nothing else happens: the whole
trace is that single plan update — no task update, no model update, and no
generation collaborator call. -/
theorem executePlan_missing_modelId (plan : ExecutionPlan) (projectId : String)
    (ctx : AgentContext) (o : ExecOracle)
    (h : plan.modelId = none ∨ plan.modelId = some "") :
    executePlan plan projectId ctx o
      = { events := [.planUpdate plan.id { status := some TaskStatus.FAILED }], tick := 0 } ∧
    taskUpdatesIn (executePlan plan projectId ctx o).events = [] ∧
    modelUpdatesIn (executePlan plan projectId ctx o).events = [] ∧
    descCallsIn (executePlan plan projectId ctx o).events = [] ∧
    structCallsIn (executePlan plan projectId ctx o).events = [] ∧
    planStatusAfter (executePlan plan projectId ctx o).events plan.id plan.status
      = TaskStatus.FAILED := by
  have htr : executePlan plan projectId ctx o
      = { events := [.planUpdate plan.id { status := some TaskStatus.FAILED }], tick := 0 } := by
    rcases h with h | h
    · simp [executePlan, h, emit]
    · simp [executePlan, h, emit]
  refine ⟨htr, ?_, ?_, ?_, ?_, ?_⟩
  all_goals rw [htr]
  · rfl
  · rfl
  · rfl
  · rfl
  · simp [planStatusAfter]

/-- Witness for `executePlan_missing_modelId`: a `generate` plan built
without a `modelId`. -/
theorem executePlan_missing_modelId_witness :
    executePlan (createExecutionPlan "generate" { inputIds := some ["input-1"] } none 0
      "2024-01-01T00:00:00.000Z") "proj-1" ctx0 oracleA
      = { events := [.planUpdate "plan-0" { status := some TaskStatus.FAILED }], tick := 0 } :=
  (executePlan_missing_modelId (createExecutionPlan "generate"
    { inputIds := some ["input-1"] } none 0 "2024-01-01T00:00:00.000Z")
    "proj-1" ctx0 oracleA (Or.inl rfl)).1

/-- C7 (Plan Builder output shape): for every `generate` or `refine`
invocation, the built plan is `PENDING` with exactly two `PENDING` tasks;
task 1's arguments carry the supplied `inputIds` (and, for `refine`, the
`refinementText`), and task 2's arguments are empty. -/
theorem createExecutionPlan_shape (args : GoalArgs) (sp : Option String)
    (nowMs : Nat) (nowIso : String) :
    ((createExecutionPlan "generate" args sp nowMs nowIso).status = TaskStatus.PENDING ∧
     (createExecutionPlan "generate" args sp nowMs nowIso).tasks.length = 2 ∧
     (createExecutionPlan "generate" args sp nowMs nowIso).tasks.map Task.status
       = [TaskStatus.PENDING, TaskStatus.PENDING] ∧
     (createExecutionPlan "generate" args sp nowMs nowIso).tasks.map Task.arguments
       = [{ inputIds := args.inputIds }, {}]) ∧
    ((createExecutionPlan "refine" args sp nowMs nowIso).status = TaskStatus.PENDING ∧
     (createExecutionPlan "refine" args sp nowMs nowIso).tasks.length = 2 ∧
     (createExecutionPlan "refine" args sp nowMs nowIso).tasks.map Task.status
       = [TaskStatus.PENDING, TaskStatus.PENDING] ∧
     (createExecutionPlan "refine" args sp nowMs nowIso).tasks.map Task.arguments
       = [{ inputIds := args.inputIds, refinementText := args.refinementText }, {}]) :=
  ⟨⟨rfl, rfl, rfl, rfl⟩, ⟨rfl, rfl, rfl, rfl⟩⟩

/-- C8 (unsupported goal): for any goal other than `generate` and `refine`,
the builder performs no work and returns a plan with an empty task list and
empty goal text, still carrying the fresh id, status `PENDING`, the
creation timestamp and the supplied `modelId`. -/
theorem createExecutionPlan_unsupported_goal (goal : String) (args : GoalArgs)
    (sp : Option String) (nowMs : Nat) (nowIso : String)
    (h1 : goal ≠ "generate") (h2 : goal ≠ "refine") :
    createExecutionPlan goal args sp nowMs nowIso
      = { id := "plan-" ++ toString nowMs, goal := "", tasks := [],
          status := TaskStatus.PENDING, createdAt := nowIso,
          modelId := args.modelId, systemPrompt := sp } := by
  simp [createExecutionPlan, h1, h2]

/-- Witness for `createExecutionPlan_unsupported_goal` at the concrete goal
`"analyze"`. -/
theorem createExecutionPlan_unsupported_goal_witness :
    createExecutionPlan "analyze" {} none 0 "2024-01-01T00:00:00.000Z"
      = { id := "plan-0", goal := "", tasks := [],
          status := TaskStatus.PENDING, createdAt := "2024-01-01T00:00:00.000Z",
          modelId := none, systemPrompt := none } :=
  createExecutionPlan_unsupported_goal "analyze" {} none 0 "2024-01-01T00:00:00.000Z"
    (by decide) (by decide)

theorem jsStartsWith_append (p r : String) : jsStartsWith (p ++ r) p = true := by
  rw [jsStartsWith, String.data_append, List.isPrefixOf_iff_prefix]
  exact List.prefix_append _ _

theorem jsStartsWith_failed_sentinel (m : String) :
    jsStartsWith ("Failed to generate model: " ++ m) "Failed" = true := by
  have h0 : ("Failed to generate model: " : String) = "Failed" ++ " to generate model: " := by
    decide
  rw [h0, String.append_assoc]
  exact jsStartsWith_append "Failed" (" to generate model: " ++ m)

/-- C4 counterexample: when the underlying AI call inside the description
collaborator throws a non-`Error` value, the collaborator returns the
fixed string `"An unknown error occurred during model generation."` — a
failure report that does not begin with the `"Failed"` sentinel — so the
executor treats it as a valid description: the task completes and the
error text is stored as the model's description. The collaborator
therefore does not return "either a valid description or a
sentinel-prefixed string", and a description-class task does not fail
whenever the collaborator's underlying call failed. -/
theorem description_contract_cex :
    generateModelDescription [] none none (.nonErrorThrow "boom")
      = "An unknown error occurred during model generation." ∧
    jsStartsWith (generateModelDescription [] none none (.nonErrorThrow "boom")) "Failed"
      = false ∧
    (planA.tasks.map fun t =>
      (finalTask (executePlan planA "proj-1" ctx0 oracleU).events t).status)
      = [TaskStatus.COMPLETED, TaskStatus.COMPLETED] ∧
    planStatusAfter (executePlan planA "proj-1" ctx0 oracleU).events planA.id planA.status
      = TaskStatus.COMPLETED ∧
    modelUpdatesIn (executePlan planA "proj-1" ctx0 oracleU).events
      = [("model-1", { description := some "An unknown error occurred during model generation.", status := some ModelStatus.GENERATING }),
         ("model-1", { modelCode := some mcA, billOfMaterials := some bomA, engineeringRationale := some "r", status := some ModelStatus.COMPLETED })] := by
  decide

/-- C4 (corrected, amended claim): when the underlying call throws an
`Error`, the description collaborator returns the sentinel-prefixed string
`"Failed to generate model: " ++ message`; when it throws a non-`Error`
value it instead returns `"An unknown error occurred during model
generation."`, which lacks the sentinel. The executor converts exactly the
sentinel-prefixed return values into a thrown error carrying that string:
a description-class task body throws if and only if the returned string
begins with `"Failed"`. -/
theorem description_sentinel_amended
    (plan : ExecutionPlan) (projectId modelId : String) (ctx : AgentContext)
    (o : ExecOracle) (i : Nat) (t : Task) (prev : JSValue) (s : ExecM)
    (inputs : List DesignInput) (rt sp : Option String) (d : String)
    (hname : (jsIncludes t.name "Description" || jsIncludes t.name "Brief") = true)
    (hd : d = generateModelDescription (ctx.getInputsByIds projectId t.arguments.inputIds)
      t.arguments.refinementText plan.systemPrompt (o.descOutcome i)) :
    (∀ m, generateModelDescription inputs rt sp (.errorThrow m)
        = "Failed to generate model: " ++ m) ∧
    (∀ m, jsStartsWith (generateModelDescription inputs rt sp (.errorThrow m)) "Failed"
        = true) ∧
    (∀ v, generateModelDescription inputs rt sp (.nonErrorThrow v)
        = "An unknown error occurred during model generation.") ∧
    (∀ v, jsStartsWith (generateModelDescription inputs rt sp (.nonErrorThrow v)) "Failed"
        = false) ∧
    (jsStartsWith d "Failed" = true →
      (runTaskBody plan projectId modelId ctx o i t prev s).1 = .error d) ∧
    (jsStartsWith d "Failed" = false →
      (runTaskBody plan projectId modelId ctx o i t prev s).1 = .ok (.vstr d)) := by
  refine ⟨fun m => rfl, fun m => jsStartsWith_failed_sentinel m, fun v => rfl, ?_, ?_, ?_⟩
  · intro v
    rw [show generateModelDescription inputs rt sp (.nonErrorThrow v)
      = "An unknown error occurred during model generation." from rfl]
    decide
  · intro hsw
    rw [hd] at hsw
    simp [runTaskBody, hname, hsw, hd]
  · intro hsw
    rw [hd] at hsw
    simp [runTaskBody, hname, hsw, hd]

/-- Witness for `description_sentinel_amended`: the Scenario B instance —
the underlying call throws `Error("network error")`, the collaborator
returns `"Failed to generate model: network error"`, and the executor
converts it into a thrown error. -/
theorem description_sentinel_amended_witness :
    (runTaskBody planA "proj-1" "model-1" ctx0 oracleB 0 taskA1 .vnull s0W).1
      = .error "Failed to generate model: network error" := by
  have h := description_sentinel_amended planA "proj-1" "model-1" ctx0 oracleB 0 taskA1
    .vnull s0W [] none none "Failed to generate model: network error"
    (by decide) (by decide)
  exact h.2.2.2.2.1 (by decide)

/-- C5 counterexample: when all three attempts of the structured generator
fail (here: the underlying AI call throws `Error("network down")` every
time), `generateModelData` does not reject — it returns the degraded
fallback bundle — and the geometry-class task consequently reaches
`COMPLETED` holding that fallback, with the model marked `COMPLETED` and
its `modelCode` a generation-failure comment. Structured generation did
not succeed, yet the task completed. -/
theorem structured_contract_cex :
    generateModelData "A 10m steel frame" none (fun _ => .apiThrow "network down")
      = .ok (fallbackBundle "network down") ∧
    (planA.tasks.map fun t =>
      (finalTask (executePlan planA "proj-1" ctx0 oracleS).events t).status)
      = [TaskStatus.COMPLETED, TaskStatus.COMPLETED] ∧
    (finalTask (executePlan planA "proj-1" ctx0 oracleS).events taskA2).result
      = some (.vbundle (fallbackBundle "network down")) ∧
    planStatusAfter (executePlan planA "proj-1" ctx0 oracleS).events planA.id planA.status
      = TaskStatus.COMPLETED ∧
    modelUpdatesIn (executePlan planA "proj-1" ctx0 oracleS).events
      = [("model-1", { description := some "A 10m steel frame", status := some ModelStatus.GENERATING }),
         ("model-1", { modelCode := some (fallbackBundle "network down").modelCode, billOfMaterials := some [], engineeringRationale := some (fallbackBundle "network down").engineeringRationale, status := some ModelStatus.COMPLETED })] := by
  decide

/-- C5 (corrected, amended claim): within an attempt, `generateModelData`
signals every failure by throwing (AI-call error, JSON-parse failure, shape
validation, missing default export, JSX detection, import validation), and
it retries up to `MAX_RETRIES = 3` attempts; but when the final attempt
also fails it returns the fallback bundle instead of rejecting, so the
function always resolves with a bundle — the first successful attempt's
bundle, or the fallback built from the last error. -/
theorem generateModelData_retry_fallback (description : String) (sp : Option String)
    (attempts : Nat → StructAttemptOutcome) :
    generateModelData description sp attempts
      = (match attemptResult (attempts 1) with
        | .ok b => .ok b
        | .error _ =>
          match attemptResult (attempts 2) with
          | .ok b => .ok b
          | .error _ =>
            match attemptResult (attempts 3) with
            | .ok b => .ok b
            | .error m3 => .ok (fallbackBundle m3)) ∧
    (∃ b, generateModelData description sp attempts = Except.ok b) := by
  have hchar : generateModelData description sp attempts
      = (match attemptResult (attempts 1) with
        | .ok b => .ok b
        | .error _ =>
          match attemptResult (attempts 2) with
          | .ok b => .ok b
          | .error _ =>
            match attemptResult (attempts 3) with
            | .ok b => .ok b
            | .error m3 => .ok (fallbackBundle m3)) := by
    rcases ha1 : attemptResult (attempts 1) with m1 | b1 <;>
      rcases ha2 : attemptResult (attempts 2) with m2 | b2 <;>
      rcases ha3 : attemptResult (attempts 3) with m3 | b3 <;>
      simp [generateModelData, generateModelDataGo, MAX_RETRIES, ha1, ha2, ha3]
  refine ⟨hchar, ?_⟩
  rw [hchar]
  rcases attemptResult (attempts 1) with m1 | b1
  · rcases attemptResult (attempts 2) with m2 | b2
    · rcases attemptResult (attempts 3) with m3 | b3
      · exact ⟨fallbackBundle m3, rfl⟩
      · exact ⟨b3, rfl⟩
    · exact ⟨b2, rfl⟩
  · exact ⟨b1, rfl⟩

/-- C10 (dispatch fall-through): a task whose name contains none of the
dispatch substrings runs no generation collaborator and issues no model
update (the body returns the state unchanged), yet is marked `COMPLETED`
with an undefined result; the threaded previous-task result is overwritten
with `undefined`, so a geometry-class task that follows immediately throws
`"Description from previous step was not available."`. -/
theorem dispatch_fall_through (plan : ExecutionPlan) (projectId modelId : String)
    (ctx : AgentContext) (o : ExecOracle) (i j : Nat) (t tg : Task) (prev : JSValue)
    (s s2 : ExecM)
    (h1 : jsIncludes t.name "Description" = false)
    (h2 : jsIncludes t.name "Brief" = false)
    (h3 : jsIncludes t.name "Code & BOM" = false)
    (h4 : jsIncludes t.name "Geometry & Materials" = false)
    (h5 : (jsIncludes tg.name "Description" || jsIncludes tg.name "Brief") = false)
    (h6 : (jsIncludes tg.name "Code & BOM" || jsIncludes tg.name "Geometry & Materials")
      = true) :
    runTaskBody plan projectId modelId ctx o i t prev s = (.ok .vundef, s) ∧
    runOneTask plan projectId modelId ctx o i t prev s
      = (some .vundef, emitTaskComplete o t .vundef (emitTaskStart o t s)) ∧
    runTaskBody plan projectId modelId ctx o j tg .vundef s2
      = (.error "Description from previous step was not available.", s2) := by
  have hb1 : ∀ s0 : ExecM, runTaskBody plan projectId modelId ctx o i t prev s0
      = (.ok .vundef, s0) := by
    intro s0
    simp [runTaskBody, h1, h2, h3, h4]
  refine ⟨hb1 s, ?_, ?_⟩
  · simp [runOneTask, hb1 (emitTaskStart o t s)]
  · simp [runTaskBody, h5, h6, jsTruthy]

/-- Witness for `dispatch_fall_through`: the unrecognized task
`taskCustom` ("Attaching BIM Data") followed by the geometry task
`taskGeo`. -/
theorem dispatch_fall_through_witness :
    runOneTask planA "proj-1" "model-1" ctx0 oracleA 0 taskCustom .vnull s0W
      = (some .vundef, emitTaskComplete oracleA taskCustom .vundef
          (emitTaskStart oracleA taskCustom s0W)) ∧
    runTaskBody planA "proj-1" "model-1" ctx0 oracleA 1 taskGeo .vundef s0W
      = (.error "Description from previous step was not available.", s0W) := by
  have h := dispatch_fall_through planA "proj-1" "model-1" ctx0 oracleA 0 1
    taskCustom taskGeo .vnull s0W s0W
    (by decide) (by decide) (by decide) (by decide) (by decide) (by decide)
  exact ⟨h.2.1, h.2.2⟩

/-- C9 counterexample: in the successful Scenario A run, no
`updateTaskInPlan` request ever carries an `arguments` key, and task 2's
stored arguments remain the empty record built by the Plan Builder — yet
task 2 did run with task 1's description (the structured collaborator was
invoked with it) and the plan completed. The executor therefore does not
populate task 2's arguments with task 1's result; the description reaches
task 2 only through the local `previousTaskResult` variable. -/
theorem arguments_mutation_cex :
    noArgWrites (executePlan planA "proj-1" ctx0 oracleA).events = true ∧
    (finalTask (executePlan planA "proj-1" ctx0 oracleA).events taskA2).arguments
      = { inputIds := none, refinementText := none } ∧
    structCallsIn (executePlan planA "proj-1" ctx0 oracleA).events
      = [("A 10m steel frame", none)] ∧
    planStatusAfter (executePlan planA "proj-1" ctx0 oracleA).events planA.id planA.status
      = TaskStatus.COMPLETED := by
  decide

/-- C9 (corrected, amended claim): the executor never writes a task's
`arguments` — every `updateTaskInPlan` request it issues lacks the
`arguments` key, for every plan, context and oracle — and a geometry-class
task instead receives the previous task's result directly: its body's first
effect is invoking the structured collaborator with the threaded
`previousTaskResult` value. -/
theorem arguments_threading_amended :
    (∀ (plan : ExecutionPlan) (projectId : String) (ctx : AgentContext) (o : ExecOracle),
      noArgWrites (executePlan plan projectId ctx o).events = true) ∧
    (∀ (plan : ExecutionPlan) (projectId modelId : String) (ctx : AgentContext)
      (o : ExecOracle) (i : Nat) (t : Task) (prev : JSValue) (s : ExecM),
      (jsIncludes t.name "Description" || jsIncludes t.name "Brief") = false →
      (jsIncludes t.name "Code & BOM" || jsIncludes t.name "Geometry & Materials") = true →
      jsTruthy prev = true →
      ∃ es, (runTaskBody plan projectId modelId ctx o i t prev s).2.events
        = s.events ++ Event.structCall (jsDisplay prev) plan.systemPrompt :: es) := by
  constructor
  · intro plan projectId ctx o
    rcases hmid : plan.modelId with - | mid
    · have : executePlan plan projectId ctx o
          = { events := [.planUpdate plan.id { status := some TaskStatus.FAILED }],
              tick := 0 } := by
        simp [executePlan, hmid, emit]
      rw [this]
      rfl
    · by_cases hne : mid = ""
      · have : executePlan plan projectId ctx o
            = { events := [.planUpdate plan.id { status := some TaskStatus.FAILED }],
                tick := 0 } := by
          simp [executePlan, hmid, hne, emit]
        rw [this]
        rfl
      · rcases executePlan_shape plan projectId ctx o mid hmid hne with
          ⟨sMid, heq, -, -, harg⟩ | ⟨u, sEnd, -, heq, -, -, harg⟩
        · rw [heq]
          have : noArgWrites (emit sMid
              (.planUpdate plan.id { status := some TaskStatus.COMPLETED })).events
              = noArgWrites sMid.events := by
            simp [emit, noArgWrites, List.all_append]
          rw [this, harg]
        · rw [heq, harg]
  · intro plan projectId modelId ctx o i t prev s hn1 hn2 hprev
    cases hgen : generateModelData (jsDisplay prev) plan.systemPrompt
      (o.structAttempts i) with
    | ok b =>
      refine ⟨[Event.modelUpdate modelId { modelCode := some b.modelCode, billOfMaterials := some b.billOfMaterials, engineeringRationale := some b.engineeringRationale, status := some ModelStatus.COMPLETED }], ?_⟩
      simp [runTaskBody, hn1, hn2, hprev, hgen, emit]
    | error msg =>
      refine ⟨[], ?_⟩
      simp [runTaskBody, hn1, hn2, hprev, hgen, emit]

/-- Witness for `arguments_threading_amended`: the universal no-writes part
at the Scenario A run, and the threading part at the geometry task with a
concrete threaded description. -/
theorem arguments_threading_amended_witness :
    noArgWrites (executePlan planA "proj-1" ctx0 oracleB).events = true ∧
    (∃ es, (runTaskBody planA "proj-1" "model-1" ctx0 oracleA 1 taskGeo
        (.vstr "A 10m steel frame") s0W).2.events
      = s0W.events ++ Event.structCall "A 10m steel frame" none :: es) := by
  refine ⟨arguments_threading_amended.1 planA "proj-1" ctx0 oracleB, ?_⟩
  exact arguments_threading_amended.2 planA "proj-1" "model-1" ctx0 oracleA 1 taskGeo
    (.vstr "A 10m steel frame") s0W (by decide) (by decide) (by decide)

theorem prefix_of_singleton {α : Type} {q : List α} {a : α} (h : q <+: [a]) :
    q = [] ∨ q = [a] := by
  have h2 := prefix_concat_cases (l := []) (x := a) (by simpa using h)
  rcases h2 with h2 | h2
  · left
    exact List.prefix_nil.mp h2
  · right
    simpa using h2

theorem prefix_of_pair {α : Type} {q : List α} {a b : α} (h : q <+: [a, b]) :
    q = [] ∨ q = [a] ∨ q = [a, b] := by
  have h2 := prefix_concat_cases (l := [a]) (x := b) (by simpa using h)
  rcases h2 with h2 | h2
  · rcases prefix_of_singleton h2 with h3 | h3
    · left
      exact h3
    · right
      left
      exact h3
  · right
    right
    simpa using h2

/-- C6 counterexample: a plan with an empty task list (built from an
unsupported goal) and no `modelId` ends with status `FAILED`, while "every
one of its tasks is COMPLETED" holds vacuously — so a plan's status being
`COMPLETED` is not equivalent to all of its tasks being `COMPLETED`. -/
theorem plan_completed_iff_cex :
    planEmpty.tasks = [] ∧
    planStatusAfter (executePlan planEmpty "proj-1" ctx0 oracleA).events planEmpty.id
      planEmpty.status = TaskStatus.FAILED ∧
    ¬((planStatusAfter (executePlan planEmpty "proj-1" ctx0 oracleA).events planEmpty.id
        planEmpty.status = TaskStatus.COMPLETED) ↔
      (∀ t ∈ planEmpty.tasks,
        (finalTask (executePlan planEmpty "proj-1" ctx0 oracleA).events t).status
          = TaskStatus.COMPLETED)) := by
  decide

/-- C6 (corrected, amended claim): for every executed plan that has at
least one task, whose tasks all start `PENDING`, and whose status is not
already `COMPLETED`, the final plan status is `COMPLETED` iff every task's
final status is `COMPLETED`; moreover, after replaying any prefix of the
execution trace the plan is never `COMPLETED` while some contained task is
not `COMPLETED` — the executor sets plan `COMPLETED` only by the very last
update of a run in which every task was run to `COMPLETED`. -/
theorem plan_completed_iff_amended (plan : ExecutionPlan) (projectId : String)
    (ctx : AgentContext) (o : ExecOracle)
    (htne : plan.tasks ≠ [])
    (hpend : ∀ u ∈ plan.tasks, u.status = TaskStatus.PENDING)
    (hst : plan.status ≠ TaskStatus.COMPLETED) :
    ((planStatusAfter (executePlan plan projectId ctx o).events plan.id plan.status
        = TaskStatus.COMPLETED) ↔
      (∀ t ∈ plan.tasks, (finalTask (executePlan plan projectId ctx o).events t).status
        = TaskStatus.COMPLETED)) ∧
    (∀ p, List.IsPrefix p (executePlan plan projectId ctx o).events →
      planStatusAfter p plan.id plan.status = TaskStatus.COMPLETED →
      ∀ t ∈ plan.tasks, (finalTask p t).status = TaskStatus.COMPLETED) := by
  obtain ⟨t0, ht0⟩ := List.exists_mem_of_ne_nil plan.tasks htne
  have hfalsy : executePlan plan projectId ctx o
        = { events := [.planUpdate plan.id { status := some TaskStatus.FAILED }], tick := 0 } →
      (((planStatusAfter (executePlan plan projectId ctx o).events plan.id plan.status
          = TaskStatus.COMPLETED) ↔
        (∀ t ∈ plan.tasks, (finalTask (executePlan plan projectId ctx o).events t).status
          = TaskStatus.COMPLETED)) ∧
      (∀ p, List.IsPrefix p (executePlan plan projectId ctx o).events →
        planStatusAfter p plan.id plan.status = TaskStatus.COMPLETED →
        ∀ t ∈ plan.tasks, (finalTask p t).status = TaskStatus.COMPLETED)) := by
    intro htr
    have hps : planStatusAfter (executePlan plan projectId ctx o).events plan.id plan.status
        = TaskStatus.FAILED := by
      rw [htr]
      simp [planStatusAfter]
    constructor
    · constructor
      · intro h
        rw [hps] at h
        exact absurd h (by decide)
      · intro hAll
        exfalso
        have h1 := hAll t0 ht0
        rw [htr] at h1
        have h2 : finalTask [Event.planUpdate plan.id { status := some TaskStatus.FAILED }] t0
            = t0 := rfl
        rw [h2] at h1
        rw [hpend t0 ht0] at h1
        exact absurd h1 (by decide)
    · intro p hp hcomp t ht
      exfalso
      rw [htr] at hp
      rcases prefix_of_singleton hp with hq | hq
      · rw [hq] at hcomp
        exact hst hcomp
      · rw [hq] at hcomp
        have : planStatusAfter [Event.planUpdate plan.id { status := some TaskStatus.FAILED }]
            plan.id plan.status = TaskStatus.FAILED := by
          simp [planStatusAfter]
        rw [this] at hcomp
        exact absurd hcomp (by decide)
  rcases hmid : plan.modelId with - | mid
  · exact hfalsy (by simp [executePlan, hmid, emit])
  · by_cases hne : mid = ""
    · exact hfalsy (by simp [executePlan, hmid, hne, emit])
    · rcases executePlan_shape plan projectId ctx o mid hmid hne with
        ⟨sMid, heq, hplanMid, hcompAll, -⟩ | ⟨u, sEnd, humem, heq, hplanEnd, hfailU, -⟩
      · have hev : (executePlan plan projectId ctx o).events = sMid.events
            ++ [Event.planUpdate plan.id { status := some TaskStatus.COMPLETED }] := by
          rw [heq]
          rfl
        have hfullplan : planUpdatesFor (executePlan plan projectId ctx o).events plan.id
            = [{ status := some TaskStatus.IN_PROGRESS },
               { status := some TaskStatus.COMPLETED }] := by
          rw [hev, planUpdatesFor_append, hplanMid]
          simp [planUpdatesFor]
        have hfullstatus : planStatusAfter (executePlan plan projectId ctx o).events plan.id
            plan.status = TaskStatus.COMPLETED := by
          rw [planStatusAfter_eq_fold, hfullplan]
          rfl
        have hallcomp : ∀ t ∈ plan.tasks,
            (finalTask (executePlan plan projectId ctx o).events t).status
              = TaskStatus.COMPLETED := by
          intro t ht
          obtain ⟨pre, f, hpf, hfst⟩ := hcompAll t ht
          have hfull_t : taskUpdatesFor (executePlan plan projectId ctx o).events t.id
              = pre ++ [f] := by
            rw [hev, taskUpdatesFor_append, hpf]
            simp [taskUpdatesFor]
          exact finalTask_status_of_last _ _ f _
            (by rw [hfull_t]; exact List.getLast?_concat _) hfst
        refine ⟨⟨fun _ => hallcomp, fun _ => hfullstatus⟩, ?_⟩
        intro p hp hcomp t ht
        rw [hev] at hp
        rcases prefix_concat_cases hp with hp1 | hp1
        · exfalso
          have hq := planUpdatesFor_prefix plan.id hp1
          rw [hplanMid] at hq
          rcases prefix_of_singleton hq with hq2 | hq2
          · rw [planStatusAfter_eq_fold, hq2] at hcomp
            exact hst hcomp
          · rw [planStatusAfter_eq_fold, hq2] at hcomp
            simp at hcomp
        · have h1 := hallcomp t ht
          rw [hev] at h1
          rw [hp1]
          exact h1
      · have hevEnd : (executePlan plan projectId ctx o).events = sEnd.events := by
          rw [heq]
        have hfullstatus : planStatusAfter sEnd.events plan.id plan.status
            = TaskStatus.FAILED := by
          rw [planStatusAfter_eq_fold, hplanEnd]
          rfl
        have hufail : (finalTask sEnd.events u).status = TaskStatus.FAILED := by
          obtain ⟨pre, f, hpf, hfst⟩ := hfailU
          exact finalTask_status_of_last _ _ f _
            (by rw [hpf]; exact List.getLast?_concat _) hfst
        refine ⟨⟨?_, ?_⟩, ?_⟩
        · intro h
          rw [hevEnd, hfullstatus] at h
          exact absurd h (by decide)
        · intro hAll
          exfalso
          have h1 := hAll u humem
          rw [hevEnd, hufail] at h1
          exact absurd h1 (by decide)
        · intro p hp hcomp t ht
          exfalso
          rw [hevEnd] at hp
          have hq := planUpdatesFor_prefix plan.id hp
          rw [hplanEnd] at hq
          rcases prefix_of_pair hq with hq2 | hq2 | hq2
          · rw [planStatusAfter_eq_fold, hq2] at hcomp
            exact hst hcomp
          · rw [planStatusAfter_eq_fold, hq2] at hcomp
            simp at hcomp
          · rw [planStatusAfter_eq_fold, hq2] at hcomp
            simp at hcomp

/-- Witness for `plan_completed_iff_amended`: the Scenario A plan run under
`oracleA` satisfies all three hypotheses. -/
theorem plan_completed_iff_amended_witness :
    (planStatusAfter (executePlan planA "proj-1" ctx0 oracleA).events planA.id planA.status
        = TaskStatus.COMPLETED) ↔
      (∀ t ∈ planA.tasks, (finalTask (executePlan planA "proj-1" ctx0 oracleA).events t).status
        = TaskStatus.COMPLETED) :=
  (plan_completed_iff_amended planA "proj-1" ctx0 oracleA
    (by decide) (by decide) (by decide)).1

end SF01
